import Mathlib

/-!
Verification of the Sandcastle record-migration engine.

Shallow embedding of the core components, translated from the Python
sources:

* `Sandcastle.Phase1` — the wave scheduler
  (`sandcastle_pkg/phase1/create_accounts_bulk.py`,
  `topological_sort_accounts`).
* `Sandcastle.RecordUtils` — the record preparer
  (`sandcastle_pkg/utils/record_utils.py`: `check_record_exists`,
  `replace_lookups_with_dummies`, `filter_record_data`).
* `Sandcastle.Resolvers` — the single-record dependency resolvers
  (`create_account_with_dependencies.py`,
  `create_contact_with_dependencies.py`, `account_dependencies.py`,
  `duplicate_check.py`).

Python dicts are embedded as association lists that keep insertion
order, Python sets as lists used only through membership, and the
external Salesforce CLI clients as explicit environment records of
response functions.  Record field values are embedded by the `Value`
type; Python truthiness is `truthy`.
-/

namespace Sandcastle

/-- A field value of a fetched record: JSON null, a string, a boolean, or a
nested relationship object (a dict, of which the code only ever reads
string entries such as `Id`). -/
inductive Value where
  | vnull
  | vstr (s : String)
  | vbool (b : Bool)
  | vdict (fields : List (String × String))
deriving DecidableEq

/-- A record: insertion-ordered mapping from field name to value. -/
abbrev Rec := List (String × Value)

/-- Python truthiness of a field value (`None`, `""`, `False` and `{}` are
falsy). -/
def truthy : Value → Bool
  | .vnull => false
  | .vstr s => s ≠ ""
  | .vbool b => b
  | .vdict l => l ≠ []

/-- Whether a value is a dict (`isinstance(value, dict)`). -/
def isDict : Value → Bool
  | .vdict _ => true
  | _ => false

/-- Whether a value is a string (`isinstance(value, str)`). -/
def isStr : Value → Bool
  | .vstr _ => true
  | _ => false

/-- The string carried by a string value; only used under an `isStr` guard. -/
def strOf : Value → String
  | .vstr s => s
  | _ => ""

/-- Python `str(value)` as the code applies it when interpolating a value
into a query; the dict case is never reached on the embedded paths. -/
def pyStr : Value → String
  | .vnull => "None"
  | .vstr s => s
  | .vbool b => if b then "True" else "False"
  | .vdict _ => "dict"

/-- Python `needle in hay` on strings: substring test. -/
def pyIn (needle hay : String) : Bool :=
  decide (List.IsInfix needle.data hay.data)

/-- Python `s.lower()` (ASCII as used by the sources). -/
def pyLower (s : String) : String :=
  ⟨s.data.map Char.toLower⟩

/-- Python `s.endswith(suffix)`. -/
def pyEndsWith (s suffix : String) : Bool :=
  decide (List.IsSuffix suffix.data s.data)

/-- Python dict lookup `m.get(k)` / `m[k]` on an insertion-ordered
association list. -/
def lookupS {β : Type} (m : List (String × β)) (k : String) : Option β :=
  match m with
  | [] => none
  | p :: t => if p.1 = k then some p.2 else lookupS t k

/-- Python dict assignment `m[k] = v`: replace in place when the key is
present (keeping its position), append otherwise. -/
def setKV {β : Type} (m : List (String × β)) (k : String) (v : β) :
    List (String × β) :=
  if m.any (fun p => p.1 = k) then
    m.map (fun p => if p.1 = k then (k, v) else p)
  else
    m ++ [(k, v)]

/-- Python `m.pop(k, None)` / `del m[k]` on a dict. -/
def delKV {β : Type} (m : List (String × β)) (k : String) :
    List (String × β) :=
  m.filter (fun p => p.1 ≠ k)

/-- Python `s.replace("'", "\\'")`, written with character codes
(39 is the single quote, 92 the backslash). -/
def escSlashQuote (s : String) : String :=
  ⟨s.data.foldr
    (fun c acc =>
      if c = Char.ofNat 39 then Char.ofNat 92 :: Char.ofNat 39 :: acc
      else c :: acc) []⟩

end Sandcastle

namespace Sandcastle.Phase1

/-!
Wave scheduler, from `sandcastle_pkg/phase1/create_accounts_bulk.py`,
function `topological_sort_accounts` (lines 96-135).  The Python
`dependencies` dict (id -> set of ids) is embedded as an association
list of dependency lists; `created` is the set of already scheduled ids.
-/

/-- The id -> dependency-set mapping handed to the scheduler. -/
abbrev DepGraph := List (String × List String)

/-- Python `deps - created` on the dependency set. -/
def unsat (deps created : List String) : List String :=
  deps.filter (fun d => d ∉ created)

/-- The `ready` list collected by the first loop of an iteration: ids of
all remaining entries whose unsatisfied-dependency set is empty. -/
def readyWave (remaining : DepGraph) (created : List String) : List String :=
  (remaining.filter (fun p => unsat p.2 created = [])).map Prod.fst

/-- `min_deps`: the minimum unsatisfied-dependency count over the
remaining entries (Python `min(...)` over a non-empty dict). -/
def minUnsat (remaining : DepGraph) (created : List String) : Nat :=
  ((remaining.map (fun p => (unsat p.2 created).length)).min?).getD 0

/-- The cycle-break `ready` list: all remaining ids whose
unsatisfied-dependency count equals the minimum. -/
def cycleBreakWave (remaining : DepGraph) (created : List String) :
    List String :=
  (remaining.filter
    (fun p => (unsat p.2 created).length = minUnsat remaining created)).map
    Prod.fst

/-- One iteration of the while-loop body: the ready ids, or the
cycle-break selection when no id is ready (`if not ready:`). -/
def pickWave (remaining : DepGraph) (created : List String) : List String :=
  if readyWave remaining created = [] then cycleBreakWave remaining created
  else readyWave remaining created

/-- The scheduler loop: while entries remain, emit a wave, delete its ids
from `remaining` and add them to `created`. -/
def sortGo (remaining : DepGraph) (created : List String) :
    List (List String) :=
  if h : remaining = [] then []
  else
    pickWave remaining created ::
      sortGo (remaining.filter (fun p => p.1 ∉ pickWave remaining created))
        (created ++ pickWave remaining created)
termination_by remaining.length
decreasing_by
  have hex : ∃ p, p ∈ remaining ∧ p.1 ∈ pickWave remaining created := by
    rw [pickWave]
    by_cases hr : readyWave remaining created = []
    · rw [if_pos hr]
      have hmapne :
          remaining.map (fun p => (unsat p.2 created).length) ≠ [] := by
        simpa using h
      rcases hm : (remaining.map (fun p => (unsat p.2 created).length)).min?
        with _ | m
      · exact absurd (List.min?_eq_none_iff.mp hm) hmapne
      · have hmem := List.min?_mem (fun a b => min_choice a b) hm
        rcases List.mem_map.mp hmem with ⟨p, hp, hlen⟩
        refine ⟨p, hp, ?_⟩
        refine List.mem_map_of_mem Prod.fst (List.mem_filter.mpr ⟨hp, ?_⟩)
        simp [hlen, minUnsat, hm]
    · rw [if_neg hr]
      rcases List.exists_mem_of_ne_nil _ hr with ⟨a, ha⟩
      rcases List.mem_map.mp ha with ⟨p, hpf, rfl⟩
      exact ⟨p, List.mem_of_mem_filter hpf, ha⟩
  rcases hex with ⟨p, hp, hw⟩
  have hgen : ∀ t : List (String × List String), p ∈ t →
      (t.filter
        (fun x => decide (x.1 ∉ pickWave remaining created))).length <
        t.length := by
    intro t
    induction t with
    | nil => intro hc; cases hc
    | cons a t ih =>
      intro hmem
      rw [List.filter_cons]
      rcases List.mem_cons.mp hmem with heq | hpt
      · subst heq
        have hda : ¬ (decide (p.1 ∉ pickWave remaining created) = true) := by
          simp [hw]
        rw [if_neg hda]
        exact Nat.lt_succ_of_le (List.length_filter_le _ t)
      · by_cases hqa : decide (a.1 ∉ pickWave remaining created) = true
        · rw [if_pos hqa]
          simp only [List.length_cons]
          exact Nat.succ_lt_succ (ih hpt)
        · rw [if_neg hqa]
          exact Nat.lt_succ_of_lt (ih hpt)
  exact hgen remaining hp

/-- `topological_sort_accounts(dependencies)`. -/
def topological_sort_accounts (dependencies : DepGraph) : List (List String) :=
  sortGo dependencies []

/-- The ids scheduled strictly before wave `i`. -/
def schedBefore (waves : List (List String)) (i : Nat) : List String :=
  (waves.take i).flatten

/-- The three-account cycle A -> B -> C -> A of spec Scenario B. -/
def cycleG : DepGraph := [("A", ["B"]), ("B", ["C"]), ("C", ["A"])]

end Sandcastle.Phase1

namespace Sandcastle.RecordUtils

/-!
Record preparer, from `sandcastle_pkg/utils/record_utils.py`.

The source text of `filter_record_data` in the repository is corrupted by
an incompletely applied patch: fragments of a later "SAFETY" revision are
spliced mid-token into the function body (for example
`referenc`-fragment-`ed_object` at lines 284-288).  The embedding below
follows the coherent underlying version obtained by removing the spliced
fragments; every behaviour a theorem below relies on comes from intact
lines.  Two additional notes:

* In the invalid-`StageName` picklist branch the surviving code assigns
  the nowhere-defined name `default_stage`; executing it raises
  `NameError`, which the surrounding `except Exception` catches, so the
  field is removed.  The embedding removes the field there.
* In `replace_lookups_with_dummies` the optional-lookup `else` branch
  reads the undefined name `field_metadata` (line 160); there is no
  enclosing `try`, so the call raises `NameError`.  The embedding returns
  an error there.
-/

open Sandcastle

/-- Per-field metadata row of `insertable_fields_info`
(`load_insertable_fields`): field type, referenced object (`""` models an
empty/absent `referenceTo`), and nillable flag. -/
structure FieldInfo where
  ftype : String
  referenceTo : String
  nillable : Bool
deriving DecidableEq

/-- `insertable_fields_info`: insertion-ordered field-name -> metadata map. -/
abbrev FieldsInfo := List (String × FieldInfo)

/-- The process-wide `_record_existence_cache`, keyed by
`objectType:recordId`. -/
abbrev Cache := List (String × Bool)

/-- External collaborators of the record preparer.  `queryIdExists`
models `sf_cli.query_records("SELECT Id FROM obj WHERE Id = 'v' LIMIT 1")`
returning a non-empty result; `picklistValues` models
`get_valid_picklist_values` (its module `picklist_utils` is an external
collaborator of this file); `rtDevName` and `rtTargetId` model
`get_record_type_info_by_id`-then-`DeveloperName` and
`get_record_type_id` (`none` covers a missing result or a raised
exception, which the source handles identically by removing the field). -/
structure UtilsEnv where
  queryIdExists : String → String → Bool
  picklistValues : String → String → List String
  rtDevName : String → Option String
  rtTargetId : String → String → Option String

/-- `check_record_exists(sf_cli, object_type, record_id)` with the global
cache threaded explicitly; on a miss the query result is stored under
`object_type:record_id`. -/
def check_record_exists (env : UtilsEnv) (cache : Cache)
    (objectType recordId : String) : Bool × Cache :=
  let cacheKey := objectType ++ ":" ++ recordId
  match lookupS cache cacheKey with
  | some b => (b, cache)
  | none =>
      let res := env.queryIdExists objectType recordId
      (res, setKV cache cacheKey res)

/-- The hardcoded `required_lookups` name list of
`replace_lookups_with_dummies`. -/
def required_lookups : List String :=
  ["AccountId", "OpportunityId", "QuoteId", "OrderId",
   "AccountFromId", "AccountToId", "OwnerId"]

/-- Effect of one `replace_lookups_with_dummies` loop iteration on the
record: keep it, set the iterated field, delete the iterated field, or
raise. -/
inductive FAct where
  | keep
  | setv (s : String)
  | del
  | err (msg : String)
deriving DecidableEq

/-- The branch selection of one `replace_lookups_with_dummies` iteration
for field `f` with metadata `fi`, mirroring lines 77-175 of
`record_utils.py`. -/
def rlDecide (env : UtilsEnv) (sobjectType : String)
    (hasSourceCli hasTargetCli : Bool)
    (dummy_records : List (String × String))
    (created_mappings : List (String × List (String × String)))
    (rec : Rec) (f : String) (fi : FieldInfo) : FAct :=
  if fi.ftype = "reference" ∧ fi.referenceTo ≠ "" then
    match lookupS rec f with
    | some v =>
      if truthy v then
        if isDict v then .keep
        else if fi.referenceTo = "RecordType" ∧ f = "RecordTypeId" then
          if sobjectType = "Opportunity" then .del
          else if hasSourceCli ∧ hasTargetCli ∧ sobjectType ≠ "" then
            match env.rtDevName (pyStr v) with
            | some devName =>
              match env.rtTargetId sobjectType devName with
              | some rid => if rid ≠ "" then .setv rid else .del
              | none => .del
            | none => .del
          else .del
        else if fi.referenceTo = "User" then .keep
        else if f = "OwnerId" then .keep
        else if f ∈ required_lookups then
          match lookupS created_mappings fi.referenceTo with
          | some createdDict =>
            match (match v with
                   | Value.vstr s => lookupS createdDict s
                   | _ => none) with
            | some sid => .setv sid
            | none =>
              match lookupS dummy_records fi.referenceTo with
              | some d => .setv d
              | none => .keep
          | none =>
            match lookupS dummy_records fi.referenceTo with
            | some d => .setv d
            | none => .keep
        else .err "NameError: field_metadata is not defined"
      else .keep
    | none =>
      match lookupS dummy_records fi.referenceTo with
      | some d =>
        if f ∈ ["AccountId", "OpportunityId", "QuoteId", "OrderId"] then
          .setv d
        else .keep
      | none => .keep
  else .keep

/-- Apply one iteration action to the record. -/
def rlApply (rec : Rec) (f : String) : FAct → Except String Rec
  | .keep => .ok rec
  | .setv s => .ok (setKV rec f (Value.vstr s))
  | .del => .ok (delKV rec f)
  | .err m => .error m

/-- The `for field_name, field_info in insertable_fields_info.items()`
loop of `replace_lookups_with_dummies`. -/
def rlLoop (env : UtilsEnv) (sobjectType : String)
    (hasSourceCli hasTargetCli : Bool)
    (dummy_records : List (String × String))
    (created_mappings : List (String × List (String × String))) :
    FieldsInfo → Rec → Except String Rec
  | [], rec => .ok rec
  | (f, fi) :: rest, rec =>
    match rlApply rec f
        (rlDecide env sobjectType hasSourceCli hasTargetCli dummy_records
          created_mappings rec f fi) with
    | .ok rec2 =>
      rlLoop env sobjectType hasSourceCli hasTargetCli dummy_records
        created_mappings rest rec2
    | .error e => .error e

/-- `replace_lookups_with_dummies(record, insertable_fields_info,
dummy_records, created_mappings, sf_cli_source, sf_cli_target,
sobject_type)`.  The optional CLI arguments are modelled by presence
flags; `created_mappings = created_mappings or {}` is the `getD`. -/
def replace_lookups_with_dummies (env : UtilsEnv) (record : Rec)
    (insertable_fields_info : FieldsInfo)
    (dummy_records : List (String × String))
    (created_mappings : Option (List (String × List (String × String))))
    (hasSourceCli hasTargetCli : Bool) (sobjectType : String) :
    Except String Rec :=
  rlLoop env sobjectType hasSourceCli hasTargetCli dummy_records
    (created_mappings.getD []) insertable_fields_info record

/-- The hardcoded fallback owner of `filter_record_data`. -/
def fallback_user_id : String := "0052E00000MrqyAQAR"

/-- The `excluded_fields` set of `filter_record_data`. -/
def excluded_fields : List String :=
  ["Accept_as_Affiliate__c", "Force_NetSuite_Sync__c"]

/-- `record.get('attributes', {}).get('type') or record.get('sobjectType')`
(the `""` string models Python `None` here, matching the `if not
sobject_type` truthiness test). -/
def pySobj (record : Rec) : String :=
  let fromAttrs :=
    match lookupS record "attributes" with
    | some (Value.vdict l) => (lookupS l "type").getD ""
    | _ => ""
  if fromAttrs ≠ "" then fromAttrs
  else
    match lookupS record "sobjectType" with
    | some (Value.vstr s) => s
    | _ => ""

/-- `isinstance(value, dict) and 'Id' in value`, returning `value['Id']`
when it applies. -/
def dictId : Value → Option String
  | Value.vdict l => lookupS l "Id"
  | _ => none

/-- Greedy truncation of the multipicklist tail loop: keep values while
the semicolon-joined length stays within 255, stop at the first value
that does not fit. -/
def truncTo255 : Nat → Bool → List String → List String
  | _, _, [] => []
  | cur, nonempty, v :: rest =>
    let needed := v.length + (if nonempty then 1 else 0)
    if cur + needed ≤ 255 then v :: truncTo255 (cur + needed) true rest
    else []

/-- The non-`OwnerId` part of one `filter_record_data` field iteration:
the value to put into `filtered_data` for this field (`none` = field
dropped).  No branch here touches the existence cache (the reference
branch queries the target org directly, without the cache, exactly as
the source does). -/
def filterFieldValue (env : UtilsEnv) (insertable_fields_info : FieldsInfo)
    (sobj : String) (f : String) (v : Value) : Option Value :=
  if f = "attributes" ∨ f ∈ excluded_fields ∨
      (lookupS insertable_fields_info f).isNone then
    none
  else
    match lookupS insertable_fields_info f with
    | none => none
    | some fti =>
      if fti.ftype = "reference" then
        -- query the target org for the referenced id, keep the value only
        -- when the referenced record exists there
        if fti.referenceTo ≠ "" ∧ truthy v then
          if env.queryIdExists fti.referenceTo (pyStr v) then some v
          else none
        else none
      else if (dictId v).isSome then
        some (Value.vstr ((dictId v).getD ""))
      else if v ≠ Value.vnull then
        if pyIn "email" (pyLower f) ∧ isStr v ∧
            ¬ pyEndsWith (strOf v) ".invalid" then
          some (Value.vstr (strOf v ++ ".invalid"))
        else if fti.ftype = "picklist" ∧ isStr v then
          let s := strOf v
          let validValues := if sobj ≠ "" then env.picklistValues sobj f else []
          if validValues ≠ [] ∧ s ∉ validValues then
            if f = "StageName" then
              -- the source assigns the undefined `default_stage` here;
              -- the resulting NameError is caught by the surrounding
              -- `except`, removing the field
              none
            else if "Other" ∈ validValues then some (Value.vstr "Other")
            else none
          else if validValues ≠ [] then some v
          else if f = "StageName" then some v
          else none
        else if fti.ftype = "multipicklist" ∧ isStr v then
          let s := strOf v
          let validValues := if sobj ≠ "" then env.picklistValues sobj f else []
          if validValues ≠ [] then
            let selected := (s.split (fun c => c = Char.ofNat 59)).map String.trim
            let validSelected := selected.filter (fun x => x ∈ validValues)
            if validSelected ≠ [] then
              let joined := String.intercalate ";" validSelected
              if joined.length > 255 then
                some (Value.vstr
                  (String.intercalate ";" (truncTo255 0 false validSelected)))
              else some (Value.vstr joined)
            else none
          else none
        else if fti.ftype = "boolean" ∧ isStr v then
          if strOf v = "True" then some (Value.vbool true)
          else if strOf v = "False" then some (Value.vbool false)
          else none
        else some v
      else none

/-- One iteration of the `filter_record_data` field loop.  Only the
`OwnerId` branch (`if field_name in user_lookup_fields and value and not
isinstance(value, dict)`) consults and updates the existence cache. -/
def filterField (env : UtilsEnv) (insertable_fields_info : FieldsInfo)
    (sobj : String) (cache : Cache) (f : String) (v : Value) :
    Option Value × Cache :=
  if f = "OwnerId" ∧ truthy v ∧ ¬ isDict v then
    let res := check_record_exists env cache "User" (pyStr v)
    if res.1 then (some v, res.2) else (some (Value.vstr fallback_user_id), res.2)
  else (filterFieldValue env insertable_fields_info sobj f v, cache)

/-- The `for field_name, value in record.items()` loop of
`filter_record_data`, threading `filtered_data` and the existence cache. -/
def filterLoop (env : UtilsEnv) (insertable_fields_info : FieldsInfo)
    (sobj : String) : List (String × Value) → Rec → Cache → Rec × Cache
  | [], acc, cache => (acc, cache)
  | (f, v) :: rest, acc, cache =>
    match filterField env insertable_fields_info sobj cache f v with
    | (some w, cache2) =>
      filterLoop env insertable_fields_info sobj rest (setKV acc f w) cache2
    | (none, cache2) =>
      filterLoop env insertable_fields_info sobj rest acc cache2

/-- `filter_record_data(record, insertable_fields_info, sf_cli_target,
sobject_type)`, returning the creatable payload and the updated
process-wide existence cache. -/
def filter_record_data (env : UtilsEnv) (record : Rec)
    (insertable_fields_info : FieldsInfo) (sobjectType : String)
    (cache : Cache) : Rec × Cache :=
  let sobj := if sobjectType ≠ "" then sobjectType else pySobj record
  filterLoop env insertable_fields_info sobj record [] cache

/-- Concrete environment for the counterexamples: every queried id
exists, picklists are unconstrained, record types resolve to nothing. -/
def envAllExists : UtilsEnv :=
  { queryIdExists := fun _ _ => true
    picklistValues := fun _ _ => []
    rtDevName := fun _ => none
    rtTargetId := fun _ _ => none }

end Sandcastle.RecordUtils

namespace Sandcastle.Resolvers

/-!
Single-record dependency resolvers, from
`create_account_with_dependencies.py`,
`create_contact_with_dependencies.py`, `account_dependencies.py` and
`duplicate_check.py`.

The function-attribute `in_progress` sets and the caller-owned
`created_accounts` / `created_contacts` dicts are gathered into an
explicit `MigState`; `account_dependencies.py` defines a second
`create_account_with_dependencies` with its own `in_progress` set, so
that set is a separate state field.  Every store interaction is recorded
in a call log inside the state.

The resolvers import `filter_record_data` and `check_record_exists` from
a top-level `record_utils` module that is not part of the repository
snapshot (only `sandcastle_pkg/utils/record_utils.py` is); those two
collaborators are therefore abstracted into the environment (`prepare`,
`userExists`), as are `load_insertable_fields` (file I/O,
`loadAccountFields`) and the store client itself.

Python recursion is embedded with explicit fuel: each recursive call
passes `fuel - 1` and a call with exhausted fuel returns a distinguished
error.  The fuel guard sits after the in-progress/already-created
short-circuits, which perform no recursion.
-/

open Sandcastle Sandcastle.RecordUtils

/-- Result of `sf_cli_target.create_record`: a returned id, a falsy
return value, or a raised exception. -/
inductive CreateRes where
  | ok (newId : String)
  | retNone
  | raised (msg : String)
deriving DecidableEq

/-- One store interaction, as recorded in the call log. -/
inductive CallLog where
  | getRecord (objectType recordId : String)
  | createRecord (objectType : String) (data : Rec)
  | queryRecords (objectType : String) (clauses : List (String × String))
  | updateRecord (objectType recordId : String)
      (data : List (String × Value))
deriving DecidableEq

/-- The mutable state shared by the resolvers: the identifier maps, the
three `in_progress` sets, the `contacts_to_update` queue of
`account_dependencies.py` (entries `(contact_id, account_field,
account_prod_id)`), and the log of store calls made so far. -/
structure MigState where
  created_accounts : List (String × String)
  created_contacts : List (String × String)
  accInProgress : List String
  conInProgress : List String
  accDepInProgress : List String
  contactsToUpdate : List (String × String × String)
  log : List CallLog
deriving DecidableEq

/-- External collaborators of the resolvers.  `targetQuery` answers a
`SELECT Id FROM obj WHERE f1 = 'v1' AND ... LIMIT 1` query, given the
object and the already-escaped `(field, value)` clauses, with the list
of returned ids.  `prepare` models `filter_record_data` and `userExists`
models `check_record_exists(sf_cli_target, 'User', id)` from the
top-level `record_utils` module absent from the snapshot;
`loadAccountFields` models `load_insertable_fields('Account', ...)`. -/
structure StoreEnv where
  sourceGet : String → String → Option Rec
  targetCreate : String → Rec → CreateRes
  targetQuery : String → List (String × String) → List String
  targetUpdate : String → String → List (String × Value) →
    Except String Unit
  userExists : String → Bool
  prepare : Rec → Rec
  loadAccountFields : FieldsInfo

/-- Record a store call in the log. -/
def logCall (st : MigState) (c : CallLog) : MigState :=
  { st with log := c :: st.log }

/-- Python `ref_id in created` followed by `created[ref_id]`: `in` on a
dict raises `TypeError` for an unhashable dict key, answers the lookup
for a string, and finds nothing for other (hashable) values. -/
def pyDictGet (m : List (String × String)) : Value →
    Except String (Option String)
  | Value.vdict _ => .error "TypeError: unhashable type dict"
  | Value.vstr s => .ok (lookupS m s)
  | _ => .ok none

/-- `prod_account_record.get('Name', '').replace("'", "\\'")`
(create_account_with_dependencies.py line 84): the `''` default applies
only when `Name` is absent; when `Name` is present as a non-string value
(null, boolean, relationship dict), the `.replace` call raises
`AttributeError`, which propagates to the caller. -/
def getNameEscaped (record : Rec) : Except String String :=
  match lookupS record "Name" with
  | none => .ok (escSlashQuote "")
  | some (Value.vstr s) => .ok (escSlashQuote s)
  | some _ => .error "AttributeError: the Name value has no attribute replace"

/-- The created-or-failed outcome of the guarded
`try: create_record ... except: None` of
`create_account_with_dependencies.py`, combined with the subsequent
falsy test `if not new_sandbox_account_id`. -/
def createdId : CreateRes → Option String
  | .ok i => if i = "" then none else some i
  | .retNone => none
  | .raised _ => none

/-- One iteration of the Step-1 extraction loop: collect a populated
reference field as `(field, value, referenceTo)` and pop it from the
record, leave the accumulator unchanged otherwise. -/
def extractStep (acc : List (String × Value × String) × Rec)
    (p : String × FieldInfo) : List (String × Value × String) × Rec :=
  if p.2.ftype = "reference" then
    match lookupS acc.2 p.1 with
    | some v =>
      if truthy v then
        (acc.1 ++ [(p.1, v, p.2.referenceTo)], delKV acc.2 p.1)
      else acc
    | none => acc
  else acc

/-- Step 1 of the account resolver: walk the field metadata, collect
every populated reference field and pop it from the record. -/
def extractLookups (fields : FieldsInfo) (record : Rec) :
    List (String × Value × String) × Rec :=
  fields.foldl extractStep (([] : List (String × Value × String)), record)

/-- The TEMPORARY FIX of `create_account_with_dependencies.py`: drop
`Product_Types_Quoted__c` when it is a string containing `Unknown`. -/
def tempFixPTQ (record : Rec) : Rec :=
  match lookupS record "Product_Types_Quoted__c" with
  | some v =>
    if truthy v ∧ isStr v ∧ pyIn "Unknown" (strOf v) then
      delKV record "Product_Types_Quoted__c"
    else record
  | none => record

/-- The WHERE-clause builder of `find_existing_record`
(`duplicate_check.py`): `none` when any unique field is missing or
`None`; values are stringified and quote-escaped. -/
def buildClauses : List String → Rec → Option (List (String × String))
  | [], _ => some []
  | f :: rest, record =>
    match lookupS record f with
    | none => none
    | some Value.vnull => none
    | some v =>
      (buildClauses rest record).map
        (fun cs => (f, escSlashQuote (pyStr v)) :: cs)

/-- `find_existing_record(sf_cli_target, object_name, unique_fields,
record)` from `duplicate_check.py`. -/
def find_existing_record (env : StoreEnv) (objectName : String)
    (uniqueFields : List String) (record : Rec) (st : MigState) :
    Option String × MigState :=
  if uniqueFields = [] ∨ record = [] then (none, st)
  else
    match buildClauses uniqueFields record with
    | none => (none, st)
    | some clauses =>
      let st1 := logCall st (.queryRecords objectName clauses)
      match env.targetQuery objectName clauses with
      | [] => (none, st1)
      | i :: _ => (some i, st1)

/-- Step 3 of `create_account_with_dependencies.py`: one bulk update of
the lookup fields; when it raises a hierarchy/duplicate error, retry
each field individually (each attempt wrapped in `try`, outcome only
printed). -/
def accStep3 (env : StoreEnv) (newId : String)
    (updates : List (String × Value)) (st : MigState) : MigState :=
  if updates = [] then st
  else
    let st1 := logCall st (.updateRecord "Account" newId updates)
    match env.targetUpdate "Account" newId updates with
    | .ok _ => st1
    | .error m =>
      if pyIn "Hierarchy Constraint Violation" m || pyIn "duplicate value" m
      then
        updates.foldl (fun s p => logCall s (.updateRecord "Account" newId [p]))
          st1
      else st1

/-- The `contacts_to_update` replay loop of `account_dependencies.py`:
for every queued entry of this account, update the created contact; the
update is not guarded, so a raised store error propagates. -/
def accDepContactUpdates (env : StoreEnv) (newId prodId : String) :
    List (String × String × String) → MigState →
    Except String Unit × MigState
  | [], st => (.ok (), st)
  | (contactId, accountField, accountProdId) :: rest, st =>
    if accountProdId = prodId then
      match lookupS st.created_contacts contactId with
      | some contactSandboxId =>
        let st1 := logCall st
          (.updateRecord "Contact" contactSandboxId
            [(accountField, Value.vstr newId)])
        match env.targetUpdate "Contact" contactSandboxId
            [(accountField, Value.vstr newId)] with
        | .error e => (.error e, st1)
        | .ok _ => accDepContactUpdates env newId prodId rest st1
      | none => accDepContactUpdates env newId prodId rest st
    else accDepContactUpdates env newId prodId rest st

/-- `create_contact_with_dependencies` from
`create_contact_with_dependencies.py`: short-circuits on in-progress and
already-created ids, then fetch (returning without clearing
`in_progress` on a fetch failure).  On a successful fetch the next
source statement is the function-level `from populate_sandbox import
create_account_with_dependencies, load_insertable_fields` (line 35);
`populate_sandbox.py` binds only `main` and its module imports — no
`create_account_with_dependencies` — so that import raises and
propagates to the caller, leaving the id in `in_progress`.  The
remainder of the source function (creation, the `RuntimeError` on a
falsy create result, lookup resolution, the final update) is
unreachable.  The metadata and fuel parameters are kept for the call
signature only; no recursion is reachable. -/
def createContactWithDeps (env : StoreEnv) (conFields : FieldsInfo)
    (fuel : Nat) (prodId : String) (st : MigState) :
    Except String (Option String) × MigState :=
  if prodId ∈ st.conInProgress then (.ok none, st)
  else if (lookupS st.created_contacts prodId).isSome then
    (Except.ok (lookupS st.created_contacts prodId), st)
  else
    let st1 := { st with conInProgress := prodId :: st.conInProgress }
    let st2 := logCall st1 (.getRecord "Contact" prodId)
    match env.sourceGet "Contact" prodId with
    | none =>
      -- the source returns here without `in_progress.remove`
      (.ok none, st2)
    | some _record0 =>
      (.error
        "ImportError: cannot import name create_account_with_dependencies from populate_sandbox",
       st2)

mutual

/-- `create_account_with_dependencies` from
`create_account_with_dependencies.py`: short-circuit on in-progress and
already-created, fetch, extract lookups, create without lookups (guarded
by `try`), on failure fall back to a duplicate lookup by `Name`, on
success recursively resolve the extracted lookups and update them. -/
def createAccountWithDeps (env : StoreEnv) (accFields conFields : FieldsInfo)
    (fuel : Nat) (prodId : String) (st : MigState) :
    Except String (Option String) × MigState :=
  if prodId ∈ st.accInProgress then (.ok none, st)
  else if (lookupS st.created_accounts prodId).isSome then
    (Except.ok (lookupS st.created_accounts prodId), st)
  else if hf : fuel = 0 then (.error "FUEL", st)
  else
    let st1 := { st with accInProgress := prodId :: st.accInProgress }
    let st2 := logCall st1 (.getRecord "Account" prodId)
    match env.sourceGet "Account" prodId with
    | none =>
      (.ok none, { st2 with accInProgress := st2.accInProgress.erase prodId })
    | some record0 =>
      let ex := extractLookups accFields record0
      let record2 := tempFixPTQ ex.2
      let filtered := delKV (env.prepare record2) "Id"
      let st3 := logCall st2 (.createRecord "Account" filtered)
      match createdId (env.targetCreate "Account" filtered) with
      | none =>
        let st4 :=
          { st3 with accInProgress := st3.accInProgress.erase prodId }
        match getNameEscaped record2 with
        | .error e =>
          -- `.get('Name','').replace(...)` raised on a non-string Name;
          -- `in_progress.remove` has already run (source line 81)
          (.error e, st4)
        | .ok accountName =>
          let st5 :=
            logCall st4 (.queryRecords "Account" [("Name", accountName)])
          match env.targetQuery "Account" [("Name", accountName)] with
          | [] => (.ok none, st5)
          | existingId :: _ =>
            let st6 := { st5 with
              created_accounts := setKV st5.created_accounts prodId existingId }
            -- the Source_Id__c backfill update is wrapped in try/except,
            -- its outcome is only printed
            let st7 := logCall st6
              (.updateRecord "Account" existingId
                [("Source_Id__c", Value.vstr prodId)])
            (.ok (some existingId), st7)
      | some newId =>
        let st4 := { st3 with
          created_accounts := setKV st3.created_accounts prodId newId }
        match accStep2 env accFields conFields (fuel - 1) ex.1 [] st4 with
        | (.error e, stE) => (.error e, stE)
        | (.ok lookupUpdates, st5) =>
          let st6 := accStep3 env newId lookupUpdates st5
          (.ok (some newId),
           { st6 with accInProgress := st6.accInProgress.erase prodId })
termination_by fuel
decreasing_by all_goals omega

/-- Step 2 of `create_account_with_dependencies.py`: resolve each
extracted lookup, recursively creating referenced accounts and contacts;
`User` lookups are kept when the user exists in the target. -/
def accStep2 (env : StoreEnv) (accFields conFields : FieldsInfo)
    (fuel : Nat) (lookups : List (String × Value × String))
    (updates : List (String × Value)) (st : MigState) :
    Except String (List (String × Value)) × MigState :=
  match lookups with
  | [] => (.ok updates, st)
  | (f, refVal, refTo) :: rest =>
    if hf : fuel = 0 then (.error "FUEL", st)
    else if refTo = "Account" then
      match pyDictGet st.created_accounts refVal with
      | .error e => (.error e, st)
      | .ok (some sid) =>
        accStep2 env accFields conFields (fuel - 1) rest
          (updates ++ [(f, Value.vstr sid)]) st
      | .ok none =>
        match createAccountWithDeps env accFields conFields (fuel - 1)
            (pyStr refVal) st with
        | (.error e, stE) => (.error e, stE)
        | (.ok (some sid), st2) =>
          accStep2 env accFields conFields (fuel - 1) rest
            (updates ++ [(f, Value.vstr sid)]) st2
        | (.ok none, st2) =>
          accStep2 env accFields conFields (fuel - 1) rest updates st2
    else if refTo = "Contact" then
      match pyDictGet st.created_contacts refVal with
      | .error e => (.error e, st)
      | .ok (some sid) =>
        accStep2 env accFields conFields (fuel - 1) rest
          (updates ++ [(f, Value.vstr sid)]) st
      | .ok none =>
        match createContactWithDeps env conFields (fuel - 1)
            (pyStr refVal) st with
        | (.error e, stE) => (.error e, stE)
        | (.ok (some sid), st2) =>
          accStep2 env accFields conFields (fuel - 1) rest
            (updates ++ [(f, Value.vstr sid)]) st2
        | (.ok none, st2) =>
          accStep2 env accFields conFields (fuel - 1) rest updates st2
    else if refTo = "User" then
      if env.userExists (pyStr refVal) then
        accStep2 env accFields conFields (fuel - 1) rest
          (updates ++ [(f, refVal)]) st
      else accStep2 env accFields conFields (fuel - 1) rest updates st
    else accStep2 env accFields conFields (fuel - 1) rest updates st
termination_by fuel
decreasing_by all_goals omega

end

mutual

/-- The second `create_account_with_dependencies`, from
`account_dependencies.py`: short-circuits, fetch (no `in_progress`
cleanup on failure), duplicate check by `Name` (adopting the existing id
without `in_progress` cleanup), recursive in-place lookup resolution,
unguarded create, and the `contacts_to_update` replay. -/
def accountDepsCreate (env : StoreEnv) (accFields : FieldsInfo)
    (fuel : Nat) (prodId : String) (st : MigState) :
    Except String (Option String) × MigState :=
  if prodId ∈ st.accDepInProgress then (.ok none, st)
  else if (lookupS st.created_accounts prodId).isSome then
    (Except.ok (lookupS st.created_accounts prodId), st)
  else if hf : fuel = 0 then (.error "FUEL", st)
  else
    let st1 := { st with accDepInProgress := prodId :: st.accDepInProgress }
    let st2 := logCall st1 (.getRecord "Account" prodId)
    match env.sourceGet "Account" prodId with
    | none =>
      -- the source returns here without `in_progress.remove`
      (.ok none, st2)
    | some record0 =>
      match find_existing_record env "Account" ["Name"] record0 st2 with
      | (some existingId, st3) =>
        -- adoption path: the source returns without `in_progress.remove`
        (.ok (some existingId),
         { st3 with
            created_accounts := setKV st3.created_accounts prodId existingId })
      | (none, st3) =>
        match accDepLoop env accFields (fuel - 1) accFields record0 st3 with
        | (.error e, stE) => (.error e, stE)
        | (.ok record1, st4) =>
          let filtered := delKV (env.prepare record1) "Id"
          let st5 := logCall st4 (.createRecord "Account" filtered)
          match env.targetCreate "Account" filtered with
          | .raised m => (.error m, st5)
          | .retNone =>
            (.ok none,
             { st5 with
                accDepInProgress := st5.accDepInProgress.erase prodId })
          | .ok newId =>
            if newId = "" then
              (.ok none,
               { st5 with
                  accDepInProgress := st5.accDepInProgress.erase prodId })
            else
              let st6 := { st5 with
                created_accounts := setKV st5.created_accounts prodId newId }
              match accDepContactUpdates env newId prodId
                  st6.contactsToUpdate st6 with
              | (.error e, stE) => (.error e, stE)
              | (.ok _, st7) =>
                let st8 := { st7 with
                  contactsToUpdate :=
                    st7.contactsToUpdate.filter (fun u => u.2.2 ≠ prodId) }
                (.ok (some newId),
                 { st8 with
                    accDepInProgress := st8.accDepInProgress.erase prodId })
termination_by fuel
decreasing_by all_goals omega

/-- The recursive dependency loop of `account_dependencies.py`,
rewriting reference fields of the record in place.  Its `Contact` branch
calls `create_contact_with_dependencies` with five arguments while the
function takes six, so reaching it raises `TypeError`. -/
def accDepLoop (env : StoreEnv) (accFields : FieldsInfo) (fuel : Nat)
    (items : FieldsInfo) (record : Rec) (st : MigState) :
    Except String Rec × MigState :=
  match items with
  | [] => (.ok record, st)
  | (f, fi) :: rest =>
    if hf : fuel = 0 then (.error "FUEL", st)
    else if fi.ftype = "reference" then
      match lookupS record f with
      | some v =>
        if truthy v then
          if fi.referenceTo = "Account" then
            match pyDictGet st.created_accounts v with
            | .error e => (.error e, st)
            | .ok (some sid) =>
              accDepLoop env accFields (fuel - 1) rest
                (setKV record f (Value.vstr sid)) st
            | .ok none =>
              match accountDepsCreate env accFields (fuel - 1)
                  (pyStr v) st with
              | (.error e, stE) => (.error e, stE)
              | (.ok (some sid), st2) =>
                accDepLoop env accFields (fuel - 1) rest
                  (setKV record f (Value.vstr sid)) st2
              | (.ok none, st2) =>
                accDepLoop env accFields (fuel - 1) rest record st2
          else if fi.referenceTo = "Contact" then
            match pyDictGet st.created_contacts v with
            | .error e => (.error e, st)
            | .ok (some sid) =>
              accDepLoop env accFields (fuel - 1) rest
                (setKV record f (Value.vstr sid)) st
            | .ok none =>
              (.error
                "TypeError: create_contact_with_dependencies missing required argument",
               st)
          else accDepLoop env accFields (fuel - 1) rest record st
        else accDepLoop env accFields (fuel - 1) rest record st
      | none => accDepLoop env accFields (fuel - 1) rest record st
    else accDepLoop env accFields (fuel - 1) rest record st
termination_by fuel
decreasing_by all_goals omega

end

/-- The empty starting state. -/
def st0 : MigState :=
  { created_accounts := []
    created_contacts := []
    accInProgress := []
    conInProgress := []
    accDepInProgress := []
    contactsToUpdate := []
    log := [] }

/-- A state in which one account and one contact are already mapped. -/
def stCached : MigState :=
  { st0 with
    created_accounts := [("001P", "001S")]
    created_contacts := [("003P", "003S")] }

/-- Environment whose source store is empty: every fetch fails. -/
def envNoSource : StoreEnv :=
  { sourceGet := fun _ _ => none
    targetCreate := fun _ _ => CreateRes.retNone
    targetQuery := fun _ _ => []
    targetUpdate := fun _ _ _ => .ok ()
    userExists := fun _ => false
    prepare := fun r => r
    loadAccountFields := [] }

/-- Environment where fetches succeed with a record whose Name is the
Python `null`, every create fails with a falsy result and the name query
finds nothing. -/
def envNullName : StoreEnv :=
  { sourceGet := fun _ _ => some [("Name", Value.vnull)]
    targetCreate := fun _ _ => CreateRes.retNone
    targetQuery := fun _ _ => []
    targetUpdate := fun _ _ _ => .ok ()
    userExists := fun _ => false
    prepare := fun r => r
    loadAccountFields := [] }

/-- Environment where fetches succeed with a one-field string-Name
record, every create fails with a falsy result and the name query finds
an existing target record. -/
def envAdopt : StoreEnv :=
  { sourceGet := fun _ _ => some [("Name", Value.vstr "Acme")]
    targetCreate := fun _ _ => CreateRes.retNone
    targetQuery := fun _ _ => ["001EXISTING"]
    targetUpdate := fun _ _ _ => .ok ()
    userExists := fun _ => false
    prepare := fun r => r
    loadAccountFields := [] }

end Sandcastle.Resolvers

namespace Sandcastle.Phase1

theorem sortGo_nil (created : List String) : sortGo [] created = [] := by
  rw [sortGo]
  simp

theorem sortGo_cons (remaining : DepGraph) (created : List String)
    (h : remaining ≠ []) :
    sortGo remaining created =
      pickWave remaining created ::
        sortGo (remaining.filter (fun p => p.1 ∉ pickWave remaining created))
          (created ++ pickWave remaining created) := by
  conv_lhs => rw [sortGo]
  rw [dif_neg h]

theorem eq_of_fst_nodup {α β : Type} {l : List (α × β)}
    (h : (l.map Prod.fst).Nodup) {p q : α × β} (hp : p ∈ l) (hq : q ∈ l)
    (hfst : p.1 = q.1) : p = q := by
  have hpw : l.Pairwise (fun a b : α × β => a.1 ≠ b.1) :=
    List.pairwise_map.mp h
  have hsym : Symmetric (fun a b : α × β => a.1 ≠ b.1) :=
    fun _ _ hxy he => hxy he.symm
  by_contra hne
  exact hpw.forall hsym hp hq hne hfst

theorem mem_filter_map_fst_iff {α β : Type} [DecidableEq α]
    {l : List (α × β)} (h : (l.map Prod.fst).Nodup) (q : α × β → Bool)
    {p : α × β} (hp : p ∈ l) :
    p.1 ∈ (l.filter q).map Prod.fst ↔ q p = true := by
  constructor
  · intro hm
    rcases List.mem_map.mp hm with ⟨p2, hp2f, hfst⟩
    have hp2 := List.mem_of_mem_filter hp2f
    have heq := eq_of_fst_nodup h hp2 hp hfst
    subst heq
    exact (List.mem_filter.mp hp2f).2
  · intro hq
    exact List.mem_map_of_mem Prod.fst (List.mem_filter.mpr ⟨hp, hq⟩)

theorem pickWave_eq_filter (remaining : DepGraph) (created : List String) :
    ∃ q : String × List String → Bool,
      pickWave remaining created = (remaining.filter q).map Prod.fst := by
  by_cases h : readyWave remaining created = []
  · refine ⟨fun p => (unsat p.2 created).length = minUnsat remaining created, ?_⟩
    rw [pickWave, if_pos h]
    rfl
  · refine ⟨fun p => unsat p.2 created = [], ?_⟩
    rw [pickWave, if_neg h]
    rfl

theorem exists_mem_pickWave (remaining : DepGraph) (created : List String)
    (h : remaining ≠ []) :
    ∃ p, p ∈ remaining ∧ p.1 ∈ pickWave remaining created := by
  rw [pickWave]
  by_cases hr : readyWave remaining created = []
  · rw [if_pos hr]
    have hmapne :
        remaining.map (fun p => (unsat p.2 created).length) ≠ [] := by
      simpa using h
    rcases hm : (remaining.map (fun p => (unsat p.2 created).length)).min?
      with _ | m
    · exact absurd (List.min?_eq_none_iff.mp hm) hmapne
    · have hmem := List.min?_mem (fun a b => min_choice a b) hm
      rcases List.mem_map.mp hmem with ⟨p, hp, hlen⟩
      refine ⟨p, hp, ?_⟩
      refine List.mem_map_of_mem Prod.fst (List.mem_filter.mpr ⟨hp, ?_⟩)
      simp [hlen, minUnsat, hm]
  · rw [if_neg hr]
    rcases List.exists_mem_of_ne_nil _ hr with ⟨a, ha⟩
    rcases List.mem_map.mp ha with ⟨p, hpf, rfl⟩
    exact ⟨p, List.mem_of_mem_filter hpf, ha⟩

theorem length_filter_lt_of_mem {α : Type} {l : List α} {q : α → Bool}
    {x : α} (hx : x ∈ l) (hqx : q x = false) :
    (l.filter q).length < l.length := by
  induction l with
  | nil => cases hx
  | cons a t ih =>
    rw [List.filter_cons]
    rcases List.mem_cons.mp hx with heq | hxt
    · subst heq
      rw [if_neg (by simp [hqx])]
      exact Nat.lt_succ_of_le (List.length_filter_le _ t)
    · by_cases hqa : q a = true
      · rw [if_pos hqa]
        simp only [List.length_cons]
        exact Nat.succ_lt_succ (ih hxt)
      · rw [if_neg hqa]
        exact Nat.lt_succ_of_lt (ih hxt)

theorem filter_not_mem_wave (remaining : DepGraph) (created : List String)
    (h : (remaining.map Prod.fst).Nodup) (q : String × List String → Bool)
    (hw : pickWave remaining created = (remaining.filter q).map Prod.fst) :
    remaining.filter (fun p => p.1 ∉ pickWave remaining created) =
      remaining.filter (fun p => !(q p)) := by
  apply List.filter_congr
  intro p hp
  have hiff := mem_filter_map_fst_iff h q hp
  by_cases hq : q p = true
  · have : p.1 ∈ pickWave remaining created := by
      rw [hw]
      exact hiff.mpr hq
    simp [this, hq]
  · have : p.1 ∉ pickWave remaining created := by
      rw [hw]
      intro hm
      exact hq (hiff.mp hm)
    simp [this, hq]

theorem sortGo_flatten_perm :
    ∀ (n : Nat) (remaining : DepGraph) (created : List String),
      remaining.length ≤ n → (remaining.map Prod.fst).Nodup →
      (sortGo remaining created).flatten.Perm (remaining.map Prod.fst) := by
  intro n
  induction n with
  | zero =>
    intro remaining created hlen _
    have hnil : remaining = [] := List.length_eq_zero.mp (Nat.le_zero.mp hlen)
    subst hnil
    simp [sortGo_nil]
  | succ n ih =>
    intro remaining created hlen hnd
    by_cases h : remaining = []
    · subst h
      simp [sortGo_nil]
    · rw [sortGo_cons remaining created h]
      rcases pickWave_eq_filter remaining created with ⟨q, hq⟩
      have hfilter := filter_not_mem_wave remaining created hnd q hq
      rw [hfilter, List.flatten_cons]
      have hsub : (remaining.filter (fun p => !(q p))).Sublist remaining :=
        List.filter_sublist _
      have hnd' : ((remaining.filter (fun p => !(q p))).map Prod.fst).Nodup :=
        (List.Sublist.map Prod.fst hsub).nodup hnd
      have hlt : (remaining.filter (fun p => !(q p))).length <
          remaining.length := by
        rcases exists_mem_pickWave remaining created h with ⟨p, hp, hpw⟩
        have hqp : q p = true := by
          apply (mem_filter_map_fst_iff hnd q hp).mp
          rw [← hq]
          exact hpw
        exact length_filter_lt_of_mem hp (by simp [hqp])
      have hlen' : (remaining.filter (fun p => !(q p))).length ≤ n := by
        omega
      have hrec := ih _ (created ++ pickWave remaining created) hlen' hnd'
      refine List.Perm.trans (hrec.append_left (pickWave remaining created)) ?_
      rw [hq, ← List.map_append]
      exact (List.filter_append_perm q remaining).map Prod.fst

/-- C1: for every dependency graph (finite map from id to dependency
set, embedded as a key-distinct association list), the wave scheduler
`topological_sort_accounts` is a total function (it terminates), and
every key of the graph appears exactly once across the returned waves:
the flattened wave list is a permutation of the key list, and each key
is counted exactly once.  This holds with no acyclicity assumption. -/
theorem C1_scheduler_covers_each_id_once (deps : DepGraph)
    (h : (deps.map Prod.fst).Nodup) :
    (topological_sort_accounts deps).flatten.Perm (deps.map Prod.fst) ∧
    ∀ id ∈ deps.map Prod.fst,
      ((topological_sort_accounts deps).flatten).count id = 1 := by
  have hp : (topological_sort_accounts deps).flatten.Perm
      (deps.map Prod.fst) :=
    sortGo_flatten_perm deps.length deps [] (Nat.le_refl _) h
  refine ⟨hp, fun id hid => ?_⟩
  rw [hp.count_eq]
  exact List.count_eq_one_of_mem h hid

theorem C1_scheduler_covers_each_id_once_witness :
    (cycleG.map Prod.fst).Nodup ∧
    ((topological_sort_accounts cycleG).flatten.Perm (cycleG.map Prod.fst) ∧
     ∀ id ∈ cycleG.map Prod.fst,
       ((topological_sort_accounts cycleG).flatten).count id = 1) :=
  ⟨by decide, C1_scheduler_covers_each_id_once cycleG (by decide)⟩

end Sandcastle.Phase1

namespace Sandcastle.Phase1

theorem sortGo_wave_rule :
    ∀ (n : Nat) (remaining : DepGraph) (created : List String),
      remaining.length ≤ n → (remaining.map Prod.fst).Nodup →
      ∀ (i : Nat), i < (sortGo remaining created).length →
      ∀ p ∈ remaining,
        p.1 ∈ (sortGo remaining created).getD i [] →
        unsat p.2 (created ++ schedBefore (sortGo remaining created) i) = [] ∨
        (sortGo remaining created).getD i [] =
          cycleBreakWave
            (remaining.filter
              (fun x => x.1 ∉ schedBefore (sortGo remaining created) i))
            (created ++ schedBefore (sortGo remaining created) i) := by
  intro n
  induction n with
  | zero =>
    intro remaining created hlen _ i hi p hp _
    have hnil : remaining = [] := List.length_eq_zero.mp (Nat.le_zero.mp hlen)
    subst hnil
    rw [sortGo_nil] at hi
    exact absurd hi (by simp)
  | succ n ih =>
    intro remaining created hlen hnd i hi p hp hmem
    by_cases h : remaining = []
    · subst h
      rw [sortGo_nil] at hi
      exact absurd hi (by simp)
    · rw [sortGo_cons remaining created h] at hi hmem ⊢
      cases i with
      | zero =>
        simp only [schedBefore, List.take_zero, List.flatten_nil,
          List.append_nil, List.getD_cons_zero] at hmem ⊢
        have hftrue : remaining.filter
            (fun x => decide (x.1 ∉ ([] : List String))) = remaining := by
          simp
        rw [hftrue]
        by_cases hr : readyWave remaining created = []
        · right
          rw [pickWave, if_pos hr]
        · left
          rw [pickWave, if_neg hr, readyWave] at hmem
          have := (mem_filter_map_fst_iff hnd _ hp).mp hmem
          simpa using this
      | succ i =>
        simp only [List.getD_cons_succ] at hmem
        simp only [List.length_cons] at hi
        have hi' : i < (sortGo
            (remaining.filter (fun x => x.1 ∉ pickWave remaining created))
            (created ++ pickWave remaining created)).length :=
          Nat.lt_of_succ_lt_succ hi
        have hsub : (remaining.filter
            (fun x => x.1 ∉ pickWave remaining created)).Sublist remaining :=
          List.filter_sublist _
        have hnd' : ((remaining.filter
            (fun x => x.1 ∉ pickWave remaining created)).map
              Prod.fst).Nodup :=
          (List.Sublist.map Prod.fst hsub).nodup hnd
        have hlen' : (remaining.filter
            (fun x => x.1 ∉ pickWave remaining created)).length ≤ n := by
          rcases exists_mem_pickWave remaining created h with ⟨p0, hp0, hp0w⟩
          have := length_filter_lt_of_mem hp0
            (q := fun x => decide (x.1 ∉ pickWave remaining created))
            (by simp [hp0w])
          omega
        have hpflat : p.1 ∈ (sortGo
            (remaining.filter (fun x => x.1 ∉ pickWave remaining created))
            (created ++ pickWave remaining created)).flatten := by
          apply List.mem_flatten.mpr
          refine ⟨_, ?_, hmem⟩
          rw [List.getD_eq_getElem _ _ hi']
          exact List.getElem_mem hi'
        have hperm := sortGo_flatten_perm n _
          (created ++ pickWave remaining created) hlen' hnd'
        have hpm := hperm.mem_iff.mp hpflat
        rcases List.mem_map.mp hpm with ⟨p2, hp2, hfst⟩
        have hp2rem : p2 ∈ remaining := hsub.subset hp2
        have hpeq : p = p2 := eq_of_fst_nodup hnd hp hp2rem hfst.symm
        have hp' : p ∈ remaining.filter
            (fun x => x.1 ∉ pickWave remaining created) := by
          rw [hpeq]
          exact hp2
        have ihapp := ih
          (remaining.filter (fun x => x.1 ∉ pickWave remaining created))
          (created ++ pickWave remaining created) hlen' hnd' i hi' p hp' hmem
        simp only [schedBefore, List.take_succ_cons, List.flatten_cons]
        simp only [schedBefore] at ihapp
        have hff : remaining.filter
            (fun x => decide (x.1 ∉ pickWave remaining created ++
              ((sortGo
                (remaining.filter
                  (fun x => x.1 ∉ pickWave remaining created))
                (created ++ pickWave remaining created)).take i).flatten)) =
            (remaining.filter
              (fun x => x.1 ∉ pickWave remaining created)).filter
              (fun x => decide (x.1 ∉
                ((sortGo
                  (remaining.filter
                    (fun x => x.1 ∉ pickWave remaining created))
                  (created ++ pickWave remaining created)).take
                    i).flatten)) := by
          rw [List.filter_filter]
          apply List.filter_congr
          intro x _
          simp only [List.mem_append, not_or]
          by_cases h1 : x.1 ∈ pickWave remaining created <;>
            by_cases h2 : x.1 ∈
              (List.take i
                (sortGo
                  (List.filter
                    (fun x => decide (x.1 ∉ pickWave remaining created))
                    remaining)
                  (created ++ pickWave remaining created))).flatten <;>
            simp [h1, h2]
        rcases ihapp with hL | hR
        · left
          rw [← List.append_assoc]
          exact hL
        · right
          rw [← List.append_assoc, hff]
          exact hR

end Sandcastle.Phase1

namespace Sandcastle.Phase1

/-- C2: for every dependency graph, every id placed in wave `i` either
has all of its dependencies that are keys of the graph already scheduled
in waves `0..i-1` (the embedded code in fact guarantees the stronger
fact that its whole unsatisfied-dependency set is empty there), or wave
`i` is literally the cycle-break selection: the ids of exactly those
not-yet-scheduled entries whose unsatisfied-dependency count is the
minimum `minUnsat`. -/
theorem C2_wave_dependency_rule (deps : DepGraph)
    (hk : (deps.map Prod.fst).Nodup) (hsets : ∀ p ∈ deps, p.2.Nodup)
    (i : Nat) (hi : i < (topological_sort_accounts deps).length)
    (p : String × List String) (hp : p ∈ deps)
    (hmem : p.1 ∈ (topological_sort_accounts deps).getD i []) :
    (∀ d ∈ p.2, d ∈ deps.map Prod.fst →
       d ∈ schedBefore (topological_sort_accounts deps) i) ∨
    (topological_sort_accounts deps).getD i [] =
      cycleBreakWave
        (deps.filter
          (fun x => x.1 ∉ schedBefore (topological_sort_accounts deps) i))
        (schedBefore (topological_sort_accounts deps) i) := by
  have hrule := sortGo_wave_rule deps.length deps [] (Nat.le_refl _) hk i hi
    p hp hmem
  rcases hrule with hL | hR
  · left
    intro d hd _
    rw [unsat] at hL
    have hnot := List.filter_eq_nil_iff.mp hL d hd
    simp only [List.nil_append] at hnot
    simpa using hnot
  · right
    simpa using hR

theorem topo_cycleG_eval :
    topological_sort_accounts cycleG = [["A", "B", "C"]] := by
  show sortGo cycleG [] = [["A", "B", "C"]]
  rw [sortGo_cons _ _ (by decide)]
  have h2 : cycleG.filter (fun p => p.1 ∉ pickWave cycleG []) = [] := by
    decide
  rw [h2, sortGo_nil]
  have h1 : pickWave cycleG [] = ["A", "B", "C"] := by decide
  rw [h1]

theorem C2_wave_dependency_rule_witness :
    ((cycleG.map Prod.fst).Nodup ∧ (∀ p ∈ cycleG, p.2.Nodup) ∧
     0 < (topological_sort_accounts cycleG).length ∧
     ("A", ["B"]) ∈ cycleG ∧
     "A" ∈ (topological_sort_accounts cycleG).getD 0 []) ∧
    ((∀ d ∈ ["B"], d ∈ cycleG.map Prod.fst →
        d ∈ schedBefore (topological_sort_accounts cycleG) 0) ∨
     (topological_sort_accounts cycleG).getD 0 [] =
       cycleBreakWave
         (cycleG.filter
           (fun x => x.1 ∉ schedBefore (topological_sort_accounts cycleG) 0))
         (schedBefore (topological_sort_accounts cycleG) 0)) := by
  refine ⟨⟨by decide, by decide, ?_, by decide, ?_⟩, ?_⟩
  · rw [topo_cycleG_eval]; decide
  · rw [topo_cycleG_eval]; decide
  · exact C2_wave_dependency_rule cycleG (by decide) (by decide) 0
      (by rw [topo_cycleG_eval]; decide) ("A", ["B"]) (by decide)
      (by rw [topo_cycleG_eval]; decide)

/-- C3 counterexample: on the three-account cycle A -> B -> C -> A the
scheduler returns the single wave `["A", "B", "C"]`, so the first wave
has three elements, not one as the claim states. -/
theorem C3_first_wave_not_singleton :
    topological_sort_accounts cycleG = [["A", "B", "C"]] ∧
    ((topological_sort_accounts cycleG).getD 0 []).length ≠ 1 := by
  refine ⟨topo_cycleG_eval, ?_⟩
  rw [topo_cycleG_eval]
  decide

/-- C3 (amended): on the cycle A -> B -> C -> A all three accounts are
tied at one unsatisfied dependency, so the cycle-break schedules all of
them together: the scheduler returns the single wave `["A", "B", "C"]`;
in particular there are at most 3 waves and each of the three ids
appears exactly once across all waves. -/
theorem C3_cycle_single_wave :
    topological_sort_accounts cycleG = [["A", "B", "C"]] ∧
    (topological_sort_accounts cycleG).length ≤ 3 ∧
    ∀ id ∈ ["A", "B", "C"],
      ((topological_sort_accounts cycleG).flatten).count id = 1 := by
  refine ⟨topo_cycleG_eval, ?_, ?_⟩ <;> rw [topo_cycleG_eval] <;> decide

end Sandcastle.Phase1

namespace Sandcastle

theorem lookupS_overwrite_ne {β : Type} (m : List (String × β)) (k f : String)
    (v : β) (h : f ≠ k) :
    lookupS (m.map (fun p => if p.1 = k then (k, v) else p)) f = lookupS m f := by
  induction m with
  | nil => rfl
  | cons p t ih =>
    simp only [List.map_cons, lookupS]
    by_cases hp : p.1 = k
    · simp [lookupS, hp, Ne.symm h, ih]
    · simp only [if_neg hp, lookupS]
      by_cases hf : p.1 = f
      · rw [if_pos hf, if_pos hf]
      · rw [if_neg hf, if_neg hf, ih]

theorem lookupS_append_ne {β : Type} (m : List (String × β)) (k f : String)
    (v : β) (h : f ≠ k) :
    lookupS (m ++ [(k, v)]) f = lookupS m f := by
  induction m with
  | nil => simp [lookupS, Ne.symm h]
  | cons p t ih =>
    simp only [List.cons_append, lookupS, List.append_eq]
    by_cases hf : p.1 = f
    · rw [if_pos hf, if_pos hf]
    · rw [if_neg hf, if_neg hf, ih]

theorem lookupS_setKV_ne {β : Type} (m : List (String × β)) (k f : String)
    (v : β) (h : f ≠ k) :
    lookupS (setKV m k v) f = lookupS m f := by
  rw [setKV]
  by_cases ha : m.any (fun p => p.1 = k)
  · rw [if_pos ha]
    exact lookupS_overwrite_ne m k f v h
  · rw [if_neg ha]
    exact lookupS_append_ne m k f v h

theorem lookupS_setKV_self {β : Type} (m : List (String × β)) (k : String)
    (v : β) : lookupS (setKV m k v) k = some v := by
  rw [setKV]
  by_cases ha : m.any (fun p => p.1 = k)
  · rw [if_pos ha]
    induction m with
    | nil => cases ha
    | cons p t ih =>
      simp only [List.any_cons, Bool.or_eq_true, decide_eq_true_eq] at ha
      by_cases hp : p.1 = k
      · simp [lookupS, hp]
      · have ha' : t.any (fun p => p.1 = k) := by
          rcases ha with h1 | h2
          · exact absurd h1 hp
          · exact h2
        simp only [List.map_cons, lookupS]
        rw [if_neg hp, if_neg hp]
        exact ih ha'
  · rw [if_neg ha]
    induction m with
    | nil => simp [lookupS]
    | cons p t ih =>
      simp only [List.any_cons, Bool.or_eq_true, decide_eq_true_eq, not_or]
        at ha
      simp only [List.cons_append, lookupS]
      rw [if_neg ha.1]
      exact ih (by simp [ha.2])

theorem lookupS_delKV_ne {β : Type} (m : List (String × β)) (k f : String)
    (h : f ≠ k) : lookupS (delKV m k) f = lookupS m f := by
  rw [delKV]
  induction m with
  | nil => rfl
  | cons p t ih =>
    rw [List.filter_cons]
    by_cases hp : p.1 = k
    · rw [if_neg (by simp [hp])]
      rw [ih]
      conv_rhs => rw [lookupS]
      rw [if_neg (show ¬ p.1 = f from fun he => h (he.symm.trans hp))]
    · rw [if_pos (by simp [hp])]
      simp only [lookupS]
      by_cases hf : p.1 = f
      · rw [if_pos hf, if_pos hf]
      · rw [if_neg hf, if_neg hf, ih]

end Sandcastle

namespace Sandcastle.RecordUtils

theorem check_record_exists_preserves (env : UtilsEnv) (cache : Cache)
    (o r k : String) (b : Bool) (h : lookupS cache k = some b) :
    lookupS (check_record_exists env cache o r).2 k = some b := by
  rw [check_record_exists]
  cases hl : lookupS cache (o ++ ":" ++ r) with
  | some b2 =>
    simp only [hl]
    exact h
  | none =>
    simp only [hl]
    have hk : k ≠ o ++ ":" ++ r := by
      intro he
      rw [he, hl] at h
      cases h
    rw [lookupS_setKV_ne _ _ _ _ hk]
    exact h

theorem filterField_cache_cases (env : UtilsEnv) (info : FieldsInfo)
    (sobj : String) (cache : Cache) (f : String) (v : Value) :
    (filterField env info sobj cache f v).2 = cache ∨
    (filterField env info sobj cache f v).2 =
      (check_record_exists env cache "User" (pyStr v)).2 := by
  rw [filterField]
  split
  · right
    rcases hres : check_record_exists env cache "User" (pyStr v) with ⟨b, c⟩
    cases b <;> simp [hres]
  · left
    rfl

theorem filterLoop_cache_preserves (env : UtilsEnv) (info : FieldsInfo)
    (sobj : String) (k : String) (b : Bool) :
    ∀ (entries : List (String × Value)) (acc : Rec) (cache : Cache),
      lookupS cache k = some b →
      lookupS (filterLoop env info sobj entries acc cache).2 k = some b := by
  intro entries
  induction entries with
  | nil =>
    intro acc cache h
    exact h
  | cons e rest ih =>
    intro acc cache h
    obtain ⟨f, v⟩ := e
    rw [filterLoop]
    have hc2 : lookupS (filterField env info sobj cache f v).2 k = some b := by
      rcases filterField_cache_cases env info sobj cache f v with he | he
      · rw [he]
        exact h
      · rw [he]
        exact check_record_exists_preserves env cache "User" (pyStr v) k b h
    cases hff : filterField env info sobj cache f v with
    | mk o cache2 =>
      rw [hff] at hc2
      cases o with
      | some w =>
        simp only []
        exact ih _ _ hc2
      | none =>
        simp only []
        exact ih _ _ hc2

/-- C7 (amended): `filter_record_data` is not free of shared-state
effects: via `check_record_exists` (`OwnerId` handling) it writes
memoized entries into the process-wide record-existence cache.  What
does hold: it never removes or overwrites an existing cache entry —
every binding present in the cache before the call is unchanged after
it — and it receives no identifier map at all, so the `IdentifierMap`
mutation happens only in its callers. -/
theorem C7_cache_entries_preserved (env : UtilsEnv) (record : Rec)
    (info : FieldsInfo) (sobjectType : String) (cache : Cache)
    (k : String) (b : Bool) (h : lookupS cache k = some b) :
    lookupS (filter_record_data env record info sobjectType cache).2 k =
      some b := by
  rw [filter_record_data]
  exact filterLoop_cache_preserves env info _ k b record [] cache h

theorem C7_cache_entries_preserved_witness :
    lookupS [("User:005X", false)] "User:005X" = some false ∧
    lookupS (filter_record_data envAllExists
        [("OwnerId", Value.vstr "005A")] [] "Account"
        [("User:005X", false)]).2 "User:005X" = some false :=
  ⟨by decide,
   C7_cache_entries_preserved envAllExists [("OwnerId", Value.vstr "005A")]
     [] "Account" [("User:005X", false)] "User:005X" false (by decide)⟩

/-- C7 counterexample: `filter_record_data` does mutate process-wide
shared state.  On a record holding only an `OwnerId`, starting from the
empty record-existence cache, the call returns with a new cache entry
`User:005A` — the claim that it performs no side effect on any
process-wide cache is false. -/
theorem C7_cache_mutated_cex :
    (filter_record_data envAllExists [("OwnerId", Value.vstr "005A")] []
        "Account" []).2 = [("User:005A", true)] ∧
    (filter_record_data envAllExists [("OwnerId", Value.vstr "005A")] []
        "Account" []).1 = [("OwnerId", Value.vstr "005A")] := by
  constructor <;> rfl

end Sandcastle.RecordUtils

namespace Sandcastle.RecordUtils

theorem filterFieldValue_email (env : UtilsEnv) (info : FieldsInfo)
    (sobj : String) (f : String) (v : String)
    (hname : pyIn "email" (pyLower f) = true)
    (hsuf : pyEndsWith v ".invalid" = false)
    (hnotref : ∀ fi, lookupS info f = some fi → fi.ftype ≠ "reference") :
    filterFieldValue env info sobj f (Value.vstr v) = none ∨
    filterFieldValue env info sobj f (Value.vstr v) =
      some (Value.vstr (v ++ ".invalid")) := by
  rw [filterFieldValue]
  by_cases hdrop : f = "attributes" ∨ f ∈ excluded_fields ∨
      (lookupS info f).isNone
  · rw [if_pos hdrop]
    left
    rfl
  · rw [if_neg hdrop]
    cases hfi : lookupS info f with
    | none =>
      simp only [hfi]
      exact Or.inl trivial
    | some fti =>
      simp only [hfi]
      rw [if_neg (hnotref fti hfi)]
      rw [if_neg (by simp [dictId])]
      rw [if_pos (by simp)]
      rw [if_pos ⟨hname, rfl, by simp [strOf, hsuf]⟩]
      right
      simp [strOf]

theorem filterLoop_keeps_other (env : UtilsEnv) (info : FieldsInfo)
    (sobj : String) (f : String) :
    ∀ (entries : List (String × Value)) (acc : Rec) (cache : Cache),
      (∀ p ∈ entries, p.1 ≠ f) →
      lookupS (filterLoop env info sobj entries acc cache).1 f =
        lookupS acc f := by
  intro entries
  induction entries with
  | nil =>
    intro acc cache _
    rfl
  | cons e rest ih =>
    intro acc cache hall
    obtain ⟨g, w⟩ := e
    have hg : g ≠ f := hall (g, w) (List.mem_cons_self _ _)
    have hall' : ∀ p ∈ rest, p.1 ≠ f :=
      fun p hp => hall p (List.mem_cons_of_mem _ hp)
    rw [filterLoop]
    cases hff : filterField env info sobj cache g w with
    | mk o cache2 =>
      cases o with
      | some w2 =>
        simp only []
        rw [ih _ _ hall']
        exact lookupS_setKV_ne acc g f w2 (Ne.symm hg)
      | none =>
        simp only []
        exact ih _ _ hall'

theorem filterLoop_email_main (env : UtilsEnv) (info : FieldsInfo)
    (sobj : String) (f : String) (v : String)
    (hname : pyIn "email" (pyLower f) = true)
    (hsuf : pyEndsWith v ".invalid" = false)
    (hnotref : ∀ fi, lookupS info f = some fi → fi.ftype ≠ "reference") :
    ∀ (entries : List (String × Value)) (acc : Rec) (cache : Cache),
      (entries.map Prod.fst).Nodup →
      lookupS entries f = some (Value.vstr v) →
      lookupS acc f = none →
      lookupS (filterLoop env info sobj entries acc cache).1 f = none ∨
      lookupS (filterLoop env info sobj entries acc cache).1 f =
        some (Value.vstr (v ++ ".invalid")) := by
  intro entries
  induction entries with
  | nil =>
    intro acc cache _ hlk _
    cases hlk
  | cons e rest ih =>
    intro acc cache hnd hlk hacc
    obtain ⟨g, w⟩ := e
    simp only [List.map_cons, List.nodup_cons] at hnd
    by_cases hg : g = f
    · subst hg
      have hw : w = Value.vstr v := by
        rw [lookupS, if_pos rfl] at hlk
        exact Option.some.inj hlk
      subst hw
      have hall : ∀ p ∈ rest, p.1 ≠ g := by
        intro p hp he
        exact hnd.1 (he ▸ List.mem_map_of_mem Prod.fst hp)
      by_cases hown : g = "OwnerId"
      · subst hown
        exact absurd hname (by decide)
      · rw [filterLoop, filterField, if_neg (by simp [hown])]
        rcases filterFieldValue_email env info sobj g v hname hsuf hnotref
          with hvnone | hvapp
        · rw [hvnone]
          simp only []
          left
          rw [filterLoop_keeps_other env info sobj g rest acc cache hall]
          exact hacc
        · rw [hvapp]
          simp only []
          right
          rw [filterLoop_keeps_other env info sobj g rest _ cache hall]
          exact lookupS_setKV_self acc g (Value.vstr (v ++ ".invalid"))
    · have hlk' : lookupS rest f = some (Value.vstr v) := by
        rw [lookupS, if_neg hg] at hlk
        exact hlk
      rw [filterLoop]
      cases hff : filterField env info sobj cache g w with
      | mk o cache2 =>
        cases o with
        | some w2 =>
          simp only []
          exact ih _ _ hnd.2 hlk'
            (by rw [lookupS_setKV_ne acc g f w2 (Ne.symm hg)]; exact hacc)
        | none =>
          simp only []
          exact ih _ _ hnd.2 hlk' hacc

/-- C10 (amended): for every field of the input record whose name
contains `email` (case-insensitively) with a string value not already
ending in `.invalid`, and whose field metadata does not classify it as a
`reference` field, `filter_record_data` either drops the field entirely
(when it is excluded or not insertable) or emits it with `.invalid`
appended — such a field value is never carried into the payload
unmodified.  The restriction to non-reference metadata is forced by the
counterexample: the reference branch passes the raw value through. -/
theorem C10_email_fields_suffixed (env : UtilsEnv) (record : Rec)
    (info : FieldsInfo) (sobjectType : String) (cache : Cache)
    (f : String) (v : String)
    (hkeys : (record.map Prod.fst).Nodup)
    (hname : pyIn "email" (pyLower f) = true)
    (hval : lookupS record f = some (Value.vstr v))
    (hsuf : pyEndsWith v ".invalid" = false)
    (hnotref : ∀ fi, lookupS info f = some fi → fi.ftype ≠ "reference") :
    lookupS (filter_record_data env record info sobjectType cache).1 f =
      none ∨
    lookupS (filter_record_data env record info sobjectType cache).1 f =
      some (Value.vstr (v ++ ".invalid")) := by
  rw [filter_record_data]
  exact filterLoop_email_main env info _ f v hname hsuf hnotref record []
    cache hkeys hval rfl

theorem C10_email_fields_suffixed_witness :
    (([("Email__c", Value.vstr "user@example.com")] : Rec).map
        Prod.fst).Nodup ∧
    pyIn "email" (pyLower "Email__c") = true ∧
    lookupS [("Email__c", Value.vstr "user@example.com")] "Email__c" =
      some (Value.vstr "user@example.com") ∧
    pyEndsWith "user@example.com" ".invalid" = false ∧
    (lookupS (filter_record_data envAllExists
        [("Email__c", Value.vstr "user@example.com")]
        [("Email__c", ⟨"string", "", true⟩)] "Contact" []).1 "Email__c" =
        none ∨
     lookupS (filter_record_data envAllExists
        [("Email__c", Value.vstr "user@example.com")]
        [("Email__c", ⟨"string", "", true⟩)] "Contact" []).1 "Email__c" =
        some (Value.vstr ("user@example.com" ++ ".invalid"))) :=
  ⟨by decide, by decide, by decide, by decide,
   C10_email_fields_suffixed envAllExists
     [("Email__c", Value.vstr "user@example.com")]
     [("Email__c", ⟨"string", "", true⟩)] "Contact" [] "Email__c"
     "user@example.com" (by decide) (by decide) (by decide) (by decide)
     (by intro fi hfi; cases hfi; decide)⟩

/-- C10 counterexample: a field whose name contains `email` but whose
metadata marks it as a `reference` field is carried into the payload
with its source value unmodified (no `.invalid` appended) whenever the
referenced id exists in the target, so the claim as stated — every
email-named string field gets `.invalid` appended — is false. -/
theorem C10_reference_email_unmodified_cex :
    (filter_record_data envAllExists
      [("Email_Ref__c", Value.vstr "user@example.com")]
      [("Email_Ref__c", ⟨"reference", "Contact", true⟩)] "Account" []).1 =
      [("Email_Ref__c", Value.vstr "user@example.com")] ∧
    pyIn "email" (pyLower "Email_Ref__c") = true ∧
    pyEndsWith "user@example.com" ".invalid" = false := by
  refine ⟨by rfl, by decide, by decide⟩

end Sandcastle.RecordUtils

namespace Sandcastle.RecordUtils

theorem rlApply_lookup_other (rec : Rec) (g f : String) (act : FAct)
    (rec2 : Rec) (hg : g ≠ f) (h : rlApply rec g act = .ok rec2) :
    lookupS rec2 f = lookupS rec f := by
  cases act with
  | keep =>
    cases h
    rfl
  | setv s =>
    cases h
    exact lookupS_setKV_ne _ _ _ _ (Ne.symm hg)
  | del =>
    cases h
    exact lookupS_delKV_ne _ _ _ (Ne.symm hg)
  | err m => cases h

theorem rlLoop_lookup_preserved (env : UtilsEnv) (sobj : String)
    (hs ht : Bool) (dums : List (String × String))
    (cms : List (String × List (String × String))) (f : String) :
    ∀ (rest : FieldsInfo) (rec payload : Rec),
      (∀ p ∈ rest, p.1 ≠ f) →
      rlLoop env sobj hs ht dums cms rest rec = .ok payload →
      lookupS payload f = lookupS rec f := by
  intro rest
  induction rest with
  | nil =>
    intro rec payload _ h
    cases h
    rfl
  | cons e t ih =>
    intro rec payload hall h
    obtain ⟨g, gi⟩ := e
    rw [rlLoop] at h
    cases hstep : rlApply rec g (rlDecide env sobj hs ht dums cms rec g gi)
      with
    | ok rec2 =>
      rw [hstep] at h
      rw [ih rec2 payload (fun p hp => hall p (List.mem_cons_of_mem _ hp)) h]
      exact rlApply_lookup_other rec g f _ rec2
        (hall (g, gi) (List.mem_cons_self _ _)) hstep
    | error e2 =>
      rw [hstep] at h
      cases h

theorem rlLoop_sets_field (env : UtilsEnv) (sobj : String) (hs ht : Bool)
    (dums : List (String × String))
    (cms : List (String × List (String × String))) (f : String)
    (fi : FieldInfo) (v : Value) (target : String)
    (hdec : ∀ r : Rec, lookupS r f = some v →
      rlDecide env sobj hs ht dums cms r f fi = FAct.setv target) :
    ∀ (info : FieldsInfo) (rec payload : Rec),
      (info.map Prod.fst).Nodup →
      (f, fi) ∈ info →
      lookupS rec f = some v →
      rlLoop env sobj hs ht dums cms info rec = .ok payload →
      lookupS payload f = some (Value.vstr target) := by
  intro info
  induction info with
  | nil =>
    intro rec payload _ hmem _ _
    cases hmem
  | cons e t ih =>
    intro rec payload hnd hmem hrec hok
    obtain ⟨g, gi⟩ := e
    simp only [List.map_cons, List.nodup_cons] at hnd
    rcases List.mem_cons.mp hmem with heq | hmem'
    · have hg : g = f := (Prod.mk.injEq _ _ _ _ ▸ heq.symm).1
      have hgi : gi = fi := (Prod.mk.injEq _ _ _ _ ▸ heq.symm).2
      subst hg
      subst hgi
      rw [rlLoop, hdec rec hrec] at hok
      rw [rlApply] at hok
      have hall : ∀ p ∈ t, p.1 ≠ g := by
        intro p hp he
        exact hnd.1 (he ▸ List.mem_map_of_mem Prod.fst hp)
      rw [rlLoop_lookup_preserved env sobj hs ht dums cms g t _ payload hall
        hok]
      exact lookupS_setKV_self rec g (Value.vstr target)
    · have hg : g ≠ f := by
        intro he
        apply hnd.1
        exact he ▸ List.mem_map_of_mem Prod.fst hmem'
      rw [rlLoop] at hok
      cases hstep : rlApply rec g (rlDecide env sobj hs ht dums cms rec g gi)
        with
      | ok rec2 =>
        rw [hstep] at hok
        exact ih rec2 payload hnd.2 hmem'
          (by rw [rlApply_lookup_other rec g f _ rec2 hg hstep]; exact hrec)
          hok
      | error e2 =>
        rw [hstep] at hok
        cases hok

/-- C5 (amended): mapped-id substitution happens only for reference
fields whose name is in the hardcoded `required_lookups` list — for
those (other than `OwnerId`, which is kept as-is, and fields referencing
`User` or `RecordType`), a value found in the created-mappings table for
the referenced type is replaced by the mapped target id in the result.
Reference fields outside that name list are never substituted: the
optional-lookup branch reads the undefined name `field_metadata` and the
call raises `NameError` instead (see the counterexample). -/
theorem C5_required_lookups_mapped (env : UtilsEnv) (record : Rec)
    (info : FieldsInfo) (dummies : List (String × String))
    (cm : Option (List (String × List (String × String))))
    (hasS hasT : Bool) (sobj : String) (f : String) (fi : FieldInfo)
    (v sid : String) (cd : List (String × String)) (payload : Rec)
    (hkeys : (info.map Prod.fst).Nodup)
    (hmem : (f, fi) ∈ info)
    (hreq : f ∈ ["AccountId", "OpportunityId", "QuoteId", "OrderId",
      "AccountFromId", "AccountToId"])
    (hft : fi.ftype = "reference") (hrt : fi.referenceTo ≠ "")
    (hrtU : fi.referenceTo ≠ "User")
    (hrec : lookupS record f = some (Value.vstr v)) (hv : v ≠ "")
    (hcm : lookupS (cm.getD []) fi.referenceTo = some cd)
    (hsid : lookupS cd v = some sid)
    (hok : replace_lookups_with_dummies env record info dummies cm hasS hasT
      sobj = .ok payload) :
    lookupS payload f = some (Value.vstr sid) := by
  have hfacts : f ∈ required_lookups ∧ f ≠ "RecordTypeId" ∧
      f ≠ "OwnerId" := by
    simp only [List.mem_cons, List.not_mem_nil, or_false] at hreq
    rcases hreq with rfl | rfl | rfl | rfl | rfl | rfl <;>
      exact ⟨by decide, by decide, by decide⟩
  have hdec : ∀ r : Rec, lookupS r f = some (Value.vstr v) →
      rlDecide env sobj hasS hasT dummies (cm.getD []) r f fi =
        FAct.setv sid := by
    intro r hr
    rw [rlDecide, if_pos ⟨hft, hrt⟩]
    simp only [hr]
    rw [if_pos (show truthy (Value.vstr v) = true by simp [truthy, hv])]
    rw [if_neg (show ¬ isDict (Value.vstr v) = true by simp [isDict])]
    rw [if_neg (show ¬ (fi.referenceTo = "RecordType" ∧ f = "RecordTypeId")
      from fun hc => hfacts.2.1 hc.2)]
    rw [if_neg hrtU, if_neg hfacts.2.2, if_pos hfacts.1]
    simp only [hcm, hsid]
  exact rlLoop_sets_field env sobj hasS hasT dummies (cm.getD []) f fi
    (Value.vstr v) sid hdec info record payload hkeys hmem hrec hok

theorem C5_required_lookups_mapped_witness :
    lookupS [("AccountId", Value.vstr "001S")] "AccountId" =
      some (Value.vstr "001S") :=
  C5_required_lookups_mapped envAllExists
    [("AccountId", Value.vstr "001P")]
    [("AccountId", ⟨"reference", "Account", false⟩)] []
    (some [("Account", [("001P", "001S")])]) true true "Contact"
    "AccountId" ⟨"reference", "Account", false⟩ "001P" "001S"
    [("001P", "001S")] [("AccountId", Value.vstr "001S")]
    (by decide) (by decide) (by decide) (by decide) (by decide) (by decide)
    (by decide) (by decide) (by decide) (by decide) (by rfl)

/-- C5 counterexample: a populated reference field outside the hardcoded
required-lookup name list is not substituted even when its id is present
in the created-mappings table — the call aborts with the `NameError`
raised by the undefined `field_metadata` in the optional-lookup branch,
so the claim that all reference fields get the mapped id is false. -/
theorem C5_optional_lookup_not_mapped_cex :
    replace_lookups_with_dummies envAllExists
      [("ParentId", Value.vstr "001P")]
      [("ParentId", ⟨"reference", "Account", true⟩)]
      [("Account", "001DUMMY")]
      (some [("Account", [("001P", "001S")])]) true true "Account" =
    .error "NameError: field_metadata is not defined" := by rfl

/-- C9 (amended): dummy substitution for unresolved references is
governed by the hardcoded `required_lookups` name list, not by the
`nillable` metadata: a field in that list (other than `OwnerId` and
`User`/`RecordType` references) whose populated value has no mapping
gets the `DummyRecord` id of its referenced type when one is available —
regardless of its `nillable` flag.  A required (`nillable=false`)
reference field outside that list is neither dummied nor dropped with a
report: the call raises `NameError` (see the counterexample). -/
theorem C9_required_list_gets_dummy (env : UtilsEnv) (record : Rec)
    (info : FieldsInfo) (dummies : List (String × String))
    (cm : Option (List (String × List (String × String))))
    (hasS hasT : Bool) (sobj : String) (f : String) (fi : FieldInfo)
    (v d : String) (payload : Rec)
    (hkeys : (info.map Prod.fst).Nodup)
    (hmem : (f, fi) ∈ info)
    (hreq : f ∈ ["AccountId", "OpportunityId", "QuoteId", "OrderId",
      "AccountFromId", "AccountToId"])
    (hft : fi.ftype = "reference") (hrt : fi.referenceTo ≠ "")
    (hrtU : fi.referenceTo ≠ "User")
    (hrec : lookupS record f = some (Value.vstr v)) (hv : v ≠ "")
    (hmiss : ∀ cd, lookupS (cm.getD []) fi.referenceTo = some cd →
      lookupS cd v = none)
    (hdum : lookupS dummies fi.referenceTo = some d)
    (hok : replace_lookups_with_dummies env record info dummies cm hasS hasT
      sobj = .ok payload) :
    lookupS payload f = some (Value.vstr d) := by
  have hfacts : f ∈ required_lookups ∧ f ≠ "RecordTypeId" ∧
      f ≠ "OwnerId" := by
    simp only [List.mem_cons, List.not_mem_nil, or_false] at hreq
    rcases hreq with rfl | rfl | rfl | rfl | rfl | rfl <;>
      exact ⟨by decide, by decide, by decide⟩
  have hdec : ∀ r : Rec, lookupS r f = some (Value.vstr v) →
      rlDecide env sobj hasS hasT dummies (cm.getD []) r f fi =
        FAct.setv d := by
    intro r hr
    rw [rlDecide, if_pos ⟨hft, hrt⟩]
    simp only [hr]
    rw [if_pos (show truthy (Value.vstr v) = true by simp [truthy, hv])]
    rw [if_neg (show ¬ isDict (Value.vstr v) = true by simp [isDict])]
    rw [if_neg (show ¬ (fi.referenceTo = "RecordType" ∧ f = "RecordTypeId")
      from fun hc => hfacts.2.1 hc.2)]
    rw [if_neg hrtU, if_neg hfacts.2.2, if_pos hfacts.1]
    cases hcmv : lookupS (cm.getD []) fi.referenceTo with
    | none => simp only [hcmv, hdum]
    | some cd => simp only [hcmv, hmiss cd hcmv, hdum]
  exact rlLoop_sets_field env sobj hasS hasT dummies (cm.getD []) f fi
    (Value.vstr v) d hdec info record payload hkeys hmem hrec hok

theorem C9_required_list_gets_dummy_witness :
    lookupS [("OrderId", Value.vstr "801DUMMY")] "OrderId" =
      some (Value.vstr "801DUMMY") :=
  C9_required_list_gets_dummy envAllExists
    [("OrderId", Value.vstr "801P")]
    [("OrderId", ⟨"reference", "Order", false⟩)]
    [("Order", "801DUMMY")] (some []) true true "Account" "OrderId"
    ⟨"reference", "Order", false⟩ "801P" "801DUMMY"
    [("OrderId", Value.vstr "801DUMMY")]
    (by decide) (by decide) (by decide) (by decide) (by decide) (by decide)
    (by decide) (by decide) (by intro cd h; cases h) (by decide) (by rfl)

/-- C9 counterexample: a field marked required (`nillable=false`) with
an unresolved reference value and a dummy available for its referenced
type is not given the dummy when its name is outside the hardcoded
required-lookup list: the preparer instead aborts with the `NameError`
raised by the undefined `field_metadata`, so the claim is false. -/
theorem C9_required_field_not_dummied_cex :
    replace_lookups_with_dummies envAllExists
      [("Custom_Req__c", Value.vstr "001P")]
      [("Custom_Req__c", ⟨"reference", "Account", false⟩)]
      [("Account", "001DUMMY")] (some []) true true "Account" =
    .error "NameError: field_metadata is not defined" := by rfl

end Sandcastle.RecordUtils

namespace Sandcastle.Resolvers

open Sandcastle.RecordUtils

/-- C4: requesting a source id that is already mapped (and not
in-flight) short-circuits in both single-record resolvers: the call
returns the already-mapped target id and the state — identifier maps,
in-flight sets and the store-call log — is returned untouched, so no
create or query call is made against either store.  This holds for any
fuel, since the short-circuit happens before any recursion. -/
theorem C4_mapped_id_short_circuits (env : StoreEnv)
    (accFields conFields : FieldsInfo) (fuelA fuelC : Nat) (st : MigState)
    (aid cid tgtA tgtC : String)
    (ha : lookupS st.created_accounts aid = some tgtA)
    (hna : aid ∉ st.accInProgress)
    (hc : lookupS st.created_contacts cid = some tgtC)
    (hnc : cid ∉ st.conInProgress) :
    createAccountWithDeps env accFields conFields fuelA aid st =
      (.ok (some tgtA), st) ∧
    createContactWithDeps env conFields fuelC cid st =
      (.ok (some tgtC), st) := by
  constructor
  · rw [createAccountWithDeps, if_neg hna,
      if_pos (show (lookupS st.created_accounts aid).isSome by
        rw [ha]; rfl), ha]
  · rw [createContactWithDeps, if_neg hnc,
      if_pos (show (lookupS st.created_contacts cid).isSome by
        rw [hc]; rfl), hc]

theorem C4_mapped_id_short_circuits_witness :
    (lookupS stCached.created_accounts "001P" = some "001S" ∧
     "001P" ∉ stCached.accInProgress ∧
     lookupS stCached.created_contacts "003P" = some "003S" ∧
     "003P" ∉ stCached.conInProgress) ∧
    createAccountWithDeps envNoSource [] [] 1 "001P" stCached =
      (.ok (some "001S"), stCached) ∧
    createContactWithDeps envNoSource [] 1 "003P" stCached =
      (.ok (some "003S"), stCached) :=
  ⟨⟨by decide, by decide, by decide, by decide⟩,
   (C4_mapped_id_short_circuits envNoSource [] [] 1 1 stCached
     "001P" "003P" "001S" "003S" (by decide) (by decide) (by decide)
     (by decide)).1,
   (C4_mapped_id_short_circuits envNoSource [] [] 1 1 stCached
     "001P" "003P" "001S" "003S" (by decide) (by decide) (by decide)
     (by decide)).2⟩

/-- C6: the claim is the spec's intent but the code violates it.  In
`create_contact_with_dependencies.py` a source-fetch failure returns
`None` without removing the id from the in-flight set (the account
variant in `create_account_with_dependencies.py` does remove it there);
in `account_dependencies.py` both the fetch-failure path and the
adopt-existing-duplicate path return without clearing the in-flight set.
Evaluated at the failing inputs: the contact resolver on an id whose
fetch fails, and the account_dependencies resolver on an id adopted by
the Name duplicate check, both leave the requested id in-flight. -/
theorem C6_inflight_left_set_on_failure :
    (createContactWithDeps envNoSource [] 1 "003A" st0).1 = .ok none ∧
    "003A" ∈ (createContactWithDeps envNoSource [] 1 "003A"
      st0).2.conInProgress ∧
    (accountDepsCreate envAdopt [] 1 "001A" st0).1 =
      .ok (some "001EXISTING") ∧
    "001A" ∈ (accountDepsCreate envAdopt [] 1 "001A"
      st0).2.accDepInProgress := by
  have hcon : createContactWithDeps envNoSource [] 1 "003A" st0 =
      (.ok none, logCall { st0 with conInProgress := ["003A"] }
        (.getRecord "Contact" "003A")) := by
    rw [createContactWithDeps]
    simp [envNoSource, st0, lookupS]
  have hacc : accountDepsCreate envAdopt [] 1 "001A" st0 =
      (.ok (some "001EXISTING"),
       { logCall (logCall { st0 with accDepInProgress := ["001A"] }
            (.getRecord "Account" "001A"))
            (.queryRecords "Account" [("Name", "Acme")]) with
          created_accounts := [("001A", "001EXISTING")] }) := by
    rw [accountDepsCreate]
    simp [envAdopt, st0, lookupS, find_existing_record, buildClauses,
      escSlashQuote, pyStr, logCall, setKV]
  refine ⟨by rw [hcon], by rw [hcon]; simp [logCall, st0],
    by rw [hacc], by rw [hacc]; simp [logCall, st0]⟩

theorem lookupS_delKV_self {β : Type} (m : List (String × β)) (k : String) :
    lookupS (delKV m k) k = none := by
  rw [delKV]
  induction m with
  | nil => rfl
  | cons p t ih =>
    rw [List.filter_cons]
    by_cases hp : p.1 = k
    · rw [if_neg (by simp [hp])]
      exact ih
    · rw [if_pos (by simp [hp])]
      simp only [lookupS]
      rw [if_neg hp]
      exact ih

theorem extractStep_lookup (acc : List (String × Value × String) × Rec)
    (p : String × FieldInfo) (k : String) :
    lookupS (extractStep acc p).2 k = none ∨
    lookupS (extractStep acc p).2 k = lookupS acc.2 k := by
  rw [extractStep]
  split
  · split
    · split
      · by_cases hk : k = p.1
        · subst hk
          left
          exact lookupS_delKV_self _ _
        · right
          exact lookupS_delKV_ne _ _ _ hk
      · right
        rfl
    · right
      rfl
  · right
    rfl

theorem extract_foldl_lookup (fields : FieldsInfo) :
    ∀ (acc : List (String × Value × String) × Rec) (k : String),
      lookupS (fields.foldl extractStep acc).2 k = none ∨
      lookupS (fields.foldl extractStep acc).2 k = lookupS acc.2 k := by
  induction fields with
  | nil =>
    intro acc k
    right
    rfl
  | cons p rest ih =>
    intro acc k
    rw [List.foldl_cons]
    rcases ih (extractStep acc p) k with h | h
    · left
      exact h
    · rcases extractStep_lookup acc p k with h2 | h2
      · left
        rw [h]
        exact h2
      · right
        rw [h]
        exact h2

theorem extractLookups_lookup (fields : FieldsInfo) (record : Rec)
    (k : String) :
    lookupS (extractLookups fields record).2 k = none ∨
    lookupS (extractLookups fields record).2 k = lookupS record k := by
  rw [extractLookups]
  exact extract_foldl_lookup fields ([], record) k

theorem tempFixPTQ_lookup (m : Rec) (k : String) :
    lookupS (tempFixPTQ m) k = none ∨ lookupS (tempFixPTQ m) k = lookupS m k := by
  rw [tempFixPTQ]
  split
  · split
    · by_cases hk : k = "Product_Types_Quoted__c"
      · subst hk
        left
        exact lookupS_delKV_self _ _
      · right
        exact lookupS_delKV_ne _ _ _ hk
    · right
      rfl
  · right
    rfl

theorem getNameEscaped_ok (r rec2 : Rec)
    (hsub : lookupS rec2 "Name" = none ∨
      lookupS rec2 "Name" = lookupS r "Name")
    (hname : ∀ v, lookupS r "Name" = some v → isStr v = true) :
    ∃ s, getNameEscaped rec2 = .ok s := by
  rw [getNameEscaped]
  cases hv : lookupS rec2 "Name" with
  | none => exact ⟨_, rfl⟩
  | some v =>
    have hr : lookupS r "Name" = some v := by
      rcases hsub with h | h
      · rw [hv] at h
        cases h
      · rw [← h]
        exact hv
    have hstr := hname v hr
    cases v with
    | vnull => exact absurd hstr (by simp [isStr])
    | vstr s => exact ⟨_, rfl⟩
    | vbool b => exact absurd hstr (by simp [isStr])
    | vdict l => exact absurd hstr (by simp [isStr])

/-- C8 counterexample: a creation failure in the account resolver can
raise to the caller after all — when the fetched record carries `Name`
as a non-string (here Python `null`), the duplicate-recovery step
`prod_account_record.get('Name', '').replace(...)` raises
`AttributeError`, so the call does not return normally. -/
theorem C8_account_name_escape_raises_cex :
    (createAccountWithDeps envNullName [] [] 1 "001A" st0).1 =
      .error "AttributeError: the Name value has no attribute replace" := by
  rw [createAccountWithDeps]
  simp [envNullName, st0, lookupS, extractLookups, extractStep, tempFixPTQ,
    delKV, getNameEscaped, createdId, logCall]

/-- C8 (amended): in the account resolver
(`create_account_with_dependencies.py`) a creation failure is recovered
without raising, provided the fetched record does not carry `Name` as a
non-string value: the call returns normally, the id is no longer
in-flight, and either the Name duplicate query found an existing target
record whose id is adopted into the identifier map, or the record is
skipped (`None`) with the map unchanged.  (When `Name` is present as a
non-string the escaping step raises `AttributeError` — see the
counterexample.)  In the contact resolver
(`create_contact_with_dependencies.py`) creation is unreachable: every
call that fetches a source record aborts at the function-level
`from populate_sandbox import create_account_with_dependencies`
(line 35), a name `populate_sandbox.py` does not define, so `ImportError`
propagates to the caller — with the id left in-flight. -/
theorem C8_account_recovery_and_contact_import (env : StoreEnv)
    (accFields conFields : FieldsInfo) (fuel : Nat) (st : MigState)
    (prodId : String) (r : Rec)
    (hni : prodId ∉ st.accInProgress)
    (hnc : lookupS st.created_accounts prodId = none)
    (hfetch : env.sourceGet "Account" prodId = some r)
    (hcf : ∀ data : Rec, createdId (env.targetCreate "Account" data) = none)
    (hfuel : fuel ≠ 0)
    (hname : ∀ v, lookupS r "Name" = some v → isStr v = true)
    (conFields2 : FieldsInfo) (fuelc : Nat) (stc : MigState)
    (cid : String) (rc : Rec)
    (hci : cid ∉ stc.conInProgress)
    (hcc : lookupS stc.created_contacts cid = none)
    (hcfetch : env.sourceGet "Contact" cid = some rc) :
    (∃ res st2,
      createAccountWithDeps env accFields conFields fuel prodId st =
        (.ok res, st2) ∧
      prodId ∉ st2.accInProgress ∧
      ((res = none ∧ st2.created_accounts = st.created_accounts) ∨
       (∃ e, res = some e ∧ lookupS st2.created_accounts prodId = some e))) ∧
    (createContactWithDeps env conFields2 fuelc cid stc).1 =
      .error
        "ImportError: cannot import name create_account_with_dependencies from populate_sandbox" := by
  constructor
  · rw [createAccountWithDeps, if_neg hni,
      if_neg (show ¬ (lookupS st.created_accounts prodId).isSome = true by
        rw [hnc]; simp), dif_neg hfuel]
    simp only [hfetch, hcf, logCall]
    have hsub : lookupS (tempFixPTQ (extractLookups accFields r).2) "Name" =
        none ∨
        lookupS (tempFixPTQ (extractLookups accFields r).2) "Name" =
          lookupS r "Name" := by
      rcases tempFixPTQ_lookup (extractLookups accFields r).2 "Name" with
        h | h
      · left
        exact h
      · rcases extractLookups_lookup accFields r "Name" with h2 | h2
        · left
          rw [h]
          exact h2
        · right
          rw [h]
          exact h2
    obtain ⟨s, hs⟩ := getNameEscaped_ok r _ hsub hname
    simp only [hs]
    split
    · refine ⟨none, _, rfl, ?_, Or.inl ⟨rfl, rfl⟩⟩
      simpa [List.erase_cons_head] using hni
    · refine ⟨_, _, rfl, ?_, Or.inr ⟨_, rfl, ?_⟩⟩
      · simpa [List.erase_cons_head] using hni
      · exact lookupS_setKV_self _ _ _
  · rw [createContactWithDeps, if_neg hci,
      if_neg (show ¬ (lookupS stc.created_contacts cid).isSome = true by
        rw [hcc]; simp)]
    simp only [hcfetch]

theorem C8_account_recovery_and_contact_import_witness :
    "001A" ∉ st0.accInProgress ∧
    lookupS st0.created_accounts "001A" = none ∧
    envAdopt.sourceGet "Account" "001A" = some [("Name", Value.vstr "Acme")] ∧
    "003C" ∉ st0.conInProgress ∧
    envAdopt.sourceGet "Contact" "003C" = some [("Name", Value.vstr "Acme")] ∧
    ((∃ res st2,
      createAccountWithDeps envAdopt [] [] 1 "001A" st0 = (.ok res, st2) ∧
      "001A" ∉ st2.accInProgress ∧
      ((res = none ∧ st2.created_accounts = st0.created_accounts) ∨
       (∃ e, res = some e ∧ lookupS st2.created_accounts "001A" = some e))) ∧
    (createContactWithDeps envAdopt [] 1 "003C" st0).1 =
      .error
        "ImportError: cannot import name create_account_with_dependencies from populate_sandbox") :=
  ⟨by decide, by decide, by rfl, by decide, by rfl,
   C8_account_recovery_and_contact_import envAdopt [] [] 1 st0 "001A"
     [("Name", Value.vstr "Acme")] (by decide) (by decide) (by rfl)
     (fun data => by rfl) (by decide)
     (by
       intro v hv
       simp only [lookupS, if_pos rfl] at hv
       cases hv
       rfl)
     [] 1 st0 "003C" [("Name", Value.vstr "Acme")]
     (by decide) (by decide) (by rfl)⟩

end Sandcastle.Resolvers
